import Mathlib

/-!
# Verification of the `cco` C-subset compiler

A shallow embedding, in Lean 4, of the parts of the `cco` compiler (a
single-translation-unit compiler from a C subset to x86-64 assembly text)
that are needed to settle the frozen claims C1-C10: the lexer, the
expression part of the parser, the label-resolution semantic pass, the
type checker, the TAC (three-address code) generator, the codegen phase
(instruction selection, pseudo-register replacement, fix-ups), and the
textual emitter.

Each Lean definition is translated from the corresponding Rust source
item; the source file and function are named in the doc comment.  The
source tree mixes revisions of the crate (for instance `lexer.rs`
produces token variants that `token.rs` no longer declares, and
`tackygen.rs` matches on an AST without `Cast` nodes or type
annotations), so the embedding keeps one namespace per revision where
needed.  A few datatype constructors used by the present code are only
declared in files missing from the tree; those are modelled from the
specification and marked as such.

Machine integers are modelled as `Int`/`Nat` with explicit range checks
and wrapping where the source performs `as` casts or `try_into`.
Fallible Rust code returns `Except`; a Rust panic (`todo!()`,
`unreachable!()`, `.unwrap()` on `None`) is modelled by a distinguished
error value.
-/

set_option maxHeartbeats 1000000

namespace Cco

/-- Outcome of a fallible Rust computation: either a returned error
`String` (the `Err` branch of `Result<_, String>`) or a panic
(`todo!()`, `unreachable!()`, or `.unwrap()` applied to `None`). -/
inductive RFail
  | msg (s : String)
  | panic
  deriving Repr, DecidableEq

/-- Rust `Result<α, String>` for code that can also panic. -/
abbrev RRes (α : Type) := Except RFail α

/-- Model of `Option::unwrap`: a panic on `None`. -/
def runwrap {α : Type} : Option α → RRes α
  | some a => .ok a
  | none => .error .panic

/-! ## Lexer (`src/compiler/lexer.rs`)

The lexer in the tree is from an older revision of the crate than
`token.rs`: its keyword table stops at `extern` (no `long`, `switch`,
`case`, `default`), and it builds a `Token::Constant` variant that
`token.rs` no longer declares.  We embed the lexer exactly as written,
with its own token type `LexToken`. -/

namespace Lexer

/-- The tokens produced by `find_first_token` in `lexer.rs`.  The
`constant` variant carries the numeric value of the matched digit string:
the source does `ms.parse().unwrap()` into a `Token::Constant` variant
that is absent from `token.rs`, so the machine width of the field is not
determined by the tree; the value of the digit string is modelled
exactly (as a `Nat`). -/
inductive LexToken
  | identifier (s : String)
  | voidKeyword | intKeyword | returnKeyword | ifKeyword | elseKeyword
  | gotoKeyword | doKeyword | whileKeyword | forKeyword | breakKeyword
  | continueKeyword | staticKeyword | externKeyword
  | constant (n : Nat)
  | openParen | closeParen | openBrace | closeBrace | semicolon | tilde
  | minus | plus | asterisk | slash | percent | ampersand | pipe | caret
  | exclamation | less | greater | equal | question | colon | comma
  | lessLessEqual | greaterGreaterEqual | lessLess | greaterGreater
  | ampersandAmpersand | pipePipe | equalEqual | exclamationEqual
  | lessEqual | greaterEqual | plusEqual | minusEqual | asteriskEqual
  | slashEqual | percentEqual | ampersandEqual | pipeEqual | caretEqual
  | minusMinus | plusPlus
  deriving Repr

/-- ASCII fragment of Rust's `char::is_whitespace`, used by
`str::trim_start` (inputs are preprocessed ASCII source text). -/
def rustIsWhitespace (c : Char) : Bool :=
  c = ' ' || c = '\t' || c = '\n' || c = '\r' || c = '\x0b' || c = '\x0c'

/-- A character matched by the regex class `\w` (ASCII fragment). -/
def isWordChar (c : Char) : Bool :=
  c.isAlpha || c.isDigit || c = '_'

/-- A character matched by the regex class `[a-zA-Z_]`. -/
def isWordStart (c : Char) : Bool :=
  c.isAlpha || c = '_'

/-- The keyword table of `find_first_token` (`lexer.rs` lines 14-29),
in source order; any other identifier-shaped match is an `Identifier`. -/
def keywordToken (ms : String) : LexToken :=
  if ms = "void" then .voidKeyword
  else if ms = "int" then .intKeyword
  else if ms = "return" then .returnKeyword
  else if ms = "if" then .ifKeyword
  else if ms = "else" then .elseKeyword
  else if ms = "goto" then .gotoKeyword
  else if ms = "do" then .doKeyword
  else if ms = "while" then .whileKeyword
  else if ms = "for" then .forKeyword
  else if ms = "break" then .breakKeyword
  else if ms = "continue" then .continueKeyword
  else if ms = "static" then .staticKeyword
  else if ms = "extern" then .externKeyword
  else .identifier ms

/-- Numeric value of a digit string (`ms.parse()` on a `[0-9]+` match). -/
def digitsVal (l : List Char) : Nat :=
  l.foldl (fun a c => 10 * a + (c.toNat - 48)) 0

/-- The punctuator table of `find_first_token` (`lexer.rs` lines 43-85),
in source order (longest patterns first). -/
def punctTable : List (List Char × LexToken) :=
  [ (['<', '<', '='], .lessLessEqual)
  , (['>', '>', '='], .greaterGreaterEqual)
  , (['<', '<'], .lessLess)
  , (['>', '>'], .greaterGreater)
  , (['&', '&'], .ampersandAmpersand)
  , (['|', '|'], .pipePipe)
  , (['=', '='], .equalEqual)
  , (['!', '='], .exclamationEqual)
  , (['<', '='], .lessEqual)
  , (['>', '='], .greaterEqual)
  , (['+', '='], .plusEqual)
  , (['-', '='], .minusEqual)
  , (['*', '='], .asteriskEqual)
  , (['/', '='], .slashEqual)
  , (['%', '='], .percentEqual)
  , (['&', '='], .ampersandEqual)
  , (['|', '='], .pipeEqual)
  , (['^', '='], .caretEqual)
  , (['-', '-'], .minusMinus)
  , (['+', '+'], .plusPlus)
  , (['('], .openParen)
  , ([')'], .closeParen)
  , (['{'], .openBrace)
  , (['}'], .closeBrace)
  , ([';'], .semicolon)
  , (['~'], .tilde)
  , (['-'], .minus)
  , (['+'], .plus)
  , (['*'], .asterisk)
  , (['/'], .slash)
  , (['%'], .percent)
  , (['&'], .ampersand)
  , (['|'], .pipe)
  , (['^'], .caret)
  , (['!'], .exclamation)
  , (['<'], .less)
  , (['>'], .greater)
  , (['='], .equal)
  , (['?'], .question)
  , ([':'], .colon)
  , ([','], .comma) ]

/-- Rust `str::strip_prefix`: drop the pattern from the front of the string
if it is a prefix, else `none`. -/
def dropPrefixChars : List Char → List Char → Option (List Char)
  | [], s => some s
  | _ :: _, [] => none
  | p :: ps, c :: cs => if p = c then dropPrefixChars ps cs else none

/-- The punctuator scan of `find_first_token`: the first table entry
whose pattern is a prefix of `s` (`iter().find_map(... strip_prefix ...)`). -/
def matchPunct (s : List Char) : Option (LexToken × List Char) :=
  punctTable.findSome? fun pt => (dropPrefixChars pt.1 s).map fun rest => (pt.2, rest)

/-- The `\b` check after the digit-string match of regex `^\d+\b`: the
remaining input must not start with a word character. -/
def atWordBoundary : List Char → Bool
  | [] => true
  | d :: _ => !isWordChar d

/-- Rust `find_first_token` (`lexer.rs` lines 5-90).  Tries, in order: the
identifier/keyword regex `^[a-zA-Z_]\w*\b`, the integer-constant regex
`^\d+\b`, and the punctuator table.  A maximal word run starting with a
word-start character always satisfies the trailing `\b`; the digit regex
fails (with no possible backtrack) when the character after the maximal
digit run is a word character, in which case the scan falls through to
the punctuators. -/
def findFirstToken : List Char → Option (LexToken × List Char)
  | [] => none
  | c :: cs =>
    if isWordStart c then
      some (keywordToken (String.mk ((c :: cs).takeWhile isWordChar)),
        (c :: cs).dropWhile isWordChar)
    else if c.isDigit then
      let rest := (c :: cs).dropWhile Char.isDigit
      if atWordBoundary rest then
        some (.constant (digitsVal ((c :: cs).takeWhile Char.isDigit)), rest)
      else matchPunct (c :: cs)
    else matchPunct (c :: cs)

/-- Rust `str::trim_start` (ASCII whitespace). -/
def trimStart (s : List Char) : List Char :=
  s.dropWhile rustIsWhitespace

theorem dropPrefixChars_spec {p s r : List Char}
    (h : dropPrefixChars p s = some r) : r <:+ s ∧ r.length + p.length = s.length := by
  induction p generalizing s with
  | nil =>
    simp only [dropPrefixChars, Option.some.injEq] at h
    subst h
    exact ⟨List.suffix_refl s, by simp⟩
  | cons a ps ih =>
    match s with
    | [] => simp [dropPrefixChars] at h
    | c :: cs =>
      simp only [dropPrefixChars] at h
      split at h
      · obtain ⟨hsuf, hlen⟩ := ih h
        refine ⟨hsuf.trans (List.suffix_cons c cs), ?_⟩
        simp only [List.length_cons]
        omega
      · exact absurd h (by simp)

theorem matchPunct_spec {s : List Char} {t : LexToken} {r : List Char}
    (h : matchPunct s = some (t, r)) : r <:+ s ∧ r.length < s.length := by
  unfold matchPunct at h
  have main : ∀ l : List (List Char × LexToken),
      (∀ pt ∈ l, (pt.1 : List Char) ≠ []) →
      l.findSome? (fun pt => (dropPrefixChars pt.1 s).map fun rest => (pt.2, rest))
        = some (t, r) → r <:+ s ∧ r.length < s.length := by
    intro l
    induction l with
    | nil => intro _ h'; simp [List.findSome?] at h'
    | cons a l ih =>
      intro hne h'
      rw [List.findSome?_cons] at h'
      cases hd : dropPrefixChars a.1 s with
      | some rest =>
        rw [hd] at h'
        simp only [Option.map_some'] at h'
        cases h'
        obtain ⟨hsuf, hlen⟩ := dropPrefixChars_spec hd
        have hpos : 0 < a.1.length := by
          have hne' := hne a (by simp)
          cases a1 : a.1 with
          | nil => exact absurd a1 hne'
          | cons _ _ => simp [a1]
        exact ⟨hsuf, by omega⟩
      | none =>
        rw [hd] at h'
        simp only [Option.map_none'] at h'
        exact ih (fun pt hpt => hne pt (by simp [hpt])) h'
  exact main punctTable (by decide) h

theorem trimStart_suffix (s : List Char) : trimStart s <:+ s :=
  List.dropWhile_suffix _

theorem trimStart_length_le (s : List Char) : (trimStart s).length ≤ s.length :=
  (trimStart_suffix s).length_le

/-- Every successful `find_first_token` match consumes at least one
character, and the remainder is a suffix of the input. -/
theorem findFirstToken_spec {s : List Char} {t : LexToken} {r : List Char}
    (h : findFirstToken s = some (t, r)) : r <:+ s ∧ r.length < s.length := by
  cases s with
  | nil => simp [findFirstToken] at h
  | cons c cs =>
    simp only [findFirstToken] at h
    split at h
    · rename_i hws
      simp only [Option.some.injEq, Prod.mk.injEq] at h
      obtain ⟨-, hr⟩ := h
      subst hr
      have hc : isWordChar c = true := by
        unfold isWordStart at hws
        unfold isWordChar
        rcases Bool.or_eq_true_iff.mp hws with h' | h' <;> simp [h']
      have heq : (c :: cs).dropWhile isWordChar = cs.dropWhile isWordChar := by
        simp [List.dropWhile_cons, hc]
      rw [heq]
      have hsuf : cs.dropWhile isWordChar <:+ cs := List.dropWhile_suffix _
      refine ⟨hsuf.trans (List.suffix_cons c cs), ?_⟩
      have := hsuf.length_le
      simp only [List.length_cons]
      omega
    · split at h
      · rename_i hdig
        split at h
        · simp only [Option.some.injEq, Prod.mk.injEq] at h
          obtain ⟨-, hr⟩ := h
          subst hr
          have heq : (c :: cs).dropWhile Char.isDigit = cs.dropWhile Char.isDigit := by
            simp [List.dropWhile_cons, hdig]
          rw [heq]
          have hsuf : cs.dropWhile Char.isDigit <:+ cs := List.dropWhile_suffix _
          refine ⟨hsuf.trans (List.suffix_cons c cs), ?_⟩
          have := hsuf.length_le
          simp only [List.length_cons]
          omega
        · exact matchPunct_spec h
      · exact matchPunct_spec h

/-- The loop of `tokenize` (`lexer.rs` lines 96-103), with the remaining
input as the recursion argument.  The loop is driven by a fuel counter
so that the definition reduces definitionally; `tokenize` below supplies
fuel that is always sufficient (`findFirstToken_spec` shows every
iteration strictly shortens the input, so fuel bounded below by the
input length never runs out — see `tokenizeLoop_spec`). -/
def tokenizeLoop : Nat → List Char → Except String (List LexToken)
  | _, [] => .ok []
  | 0, c :: cs => .error ("Could not tokenize: " ++ String.mk (c :: cs))
  | fuel + 1, c :: cs =>
    match findFirstToken (c :: cs) with
    | some (t, r) => (tokenizeLoop fuel (trimStart r)).map (t :: ·)
    | none => .error ("Could not tokenize: " ++ String.mk (c :: cs))

/-- Rust `tokenize` (`lexer.rs` lines 92-106): trim leading whitespace, then
repeatedly match a token and trim again; error out with
`"Could not tokenize: "` plus the remaining input when no token
matches. -/
def tokenize (s : List Char) : Except String (List LexToken) :=
  tokenizeLoop (trimStart s).length (trimStart s)

theorem tokenizeLoop_spec (fuel : Nat) (rest : List Char) (hfuel : rest.length ≤ fuel) :
    (∃ ts, tokenizeLoop fuel rest = .ok ts) ∨
    (∃ r, r <:+ rest ∧
      tokenizeLoop fuel rest = .error ("Could not tokenize: " ++ String.mk r)) := by
  induction fuel generalizing rest with
  | zero =>
    cases rest with
    | nil => exact Or.inl ⟨[], rfl⟩
    | cons c cs => simp at hfuel
  | succ fuel ih =>
    cases rest with
    | nil => exact Or.inl ⟨[], rfl⟩
    | cons c cs =>
      cases hf : findFirstToken (c :: cs) with
      | some tr =>
        obtain ⟨t, r⟩ := tr
        have hspec := findFirstToken_spec hf
        have hlen : (trimStart r).length ≤ fuel := by
          have := trimStart_length_le r
          simp only [List.length_cons] at hspec hfuel
          omega
        rcases ih (trimStart r) hlen with ⟨ts, hts⟩ | ⟨r', hsuf, herr⟩
        · refine Or.inl ⟨t :: ts, ?_⟩
          simp only [tokenizeLoop, hf, hts, Except.map]
        · refine Or.inr ⟨r', ?_, ?_⟩
          · exact (hsuf.trans (trimStart_suffix r)).trans hspec.1
          · simp only [tokenizeLoop, hf, herr, Except.map]
      | none =>
        refine Or.inr ⟨c :: cs, List.suffix_refl _, ?_⟩
        simp only [tokenizeLoop, hf]

end Lexer

/-! ### Claim theorems about the lexer -/

/-- C9: for every input, `tokenize` (a total function) returns either
the full token sequence or an error whose message is exactly
`"Could not tokenize: "` followed by the unconsumed suffix of the
input. -/
theorem C9_tokenize_total_or_error_with_suffix (s : List Char) :
    (∃ ts, Lexer.tokenize s = .ok ts) ∨
    (∃ r, r <:+ s ∧
      Lexer.tokenize s = .error ("Could not tokenize: " ++ String.mk r)) := by
  unfold Lexer.tokenize
  rcases Lexer.tokenizeLoop_spec (Lexer.trimStart s).length (Lexer.trimStart s) le_rfl
    with h | ⟨r, hsuf, herr⟩
  · exact Or.inl h
  · exact Or.inr ⟨r, hsuf.trans (Lexer.trimStart_suffix s), herr⟩

/-- C5 counter-evidence: the lexer in the tree does *not* recognize
`switch`, `case`, `default` or `long` as keywords (they lex as plain
identifiers), and an `L`-suffixed integer constant is a lex error
rather than a long-width constant token. -/
theorem C5_lexer_missing_keywords_and_suffix :
    Lexer.tokenize "switch".toList = .ok [.identifier "switch"] ∧
    Lexer.tokenize "case".toList = .ok [.identifier "case"] ∧
    Lexer.tokenize "default".toList = .ok [.identifier "default"] ∧
    Lexer.tokenize "long".toList = .ok [.identifier "long"] ∧
    Lexer.tokenize "1L".toList = .error "Could not tokenize: 1L" := by
  refine ⟨?_, ?_, ?_, ?_, ?_⟩ <;> rfl

/-! ## Tokens (`src/compiler/token.rs`)

The token type consumed by the parser.  `token.rs` does not declare a
`LongKeyword` variant, but `parser.rs` matches on `Token::LongKeyword`
(and the specification lists `long` in the keyword set), so that
variant is modelled from the spec/usage. -/

inductive Token
  | identifier (s : String)
  | voidKeyword | intKeyword | longKeyword | returnKeyword | ifKeyword
  | elseKeyword | gotoKeyword | doKeyword | whileKeyword | forKeyword
  | breakKeyword | continueKeyword | staticKeyword | externKeyword
  | switchKeyword | caseKeyword | defaultKeyword
  | constantInt (s : String)
  | constantLong (s : String)
  | openParen | closeParen | openBrace | closeBrace | semicolon | tilde
  | minus | plus | asterisk | slash | percent | ampersand | pipe | caret
  | exclamation | less | greater | equal | question | colon | comma
  | lessLess | greaterGreater | ampersandAmpersand | pipePipe | equalEqual
  | exclamationEqual | lessEqual | greaterEqual | plusEqual | minusEqual
  | asteriskEqual | slashEqual | percentEqual | ampersandEqual | pipeEqual
  | caretEqual | minusMinus | plusPlus | lessLessEqual | greaterGreaterEqual
  deriving Repr

/-! ## Parser (`src/compiler/parser.rs`), expression part

`parser.rs` constructs AST expressions without type-annotation fields
(e.g. `Expression::Constant(Constant::ConstantInt(v))`,
`Expression::Unary { op, expr }`), i.e. it is from the AST revision
before `ty: Option<Type>` slots were added in `ast.rs`.  The parser
namespace therefore carries that revision's expression type.  The
`VecDeque<Token>` is modelled as a `List Token` consumed from the
front; each parsing function returns the parsed node together with the
remaining tokens.  The mutual recursion of `parse_expression` /
`parse_factor` is driven by a fuel counter (every theorem below either
supplies concrete sufficient fuel or concerns a non-recursive branch). -/

/-! ## Shared AST enums (`src/compiler/ast.rs`)

These enums are identical across the crate revisions present in the
tree, so they are shared by the parser-revision AST, the
tackygen-revision AST and the type-checker AST below.  The single-field
wrapper structs of `ast.rs` (`Variable`, `Function`, `Label`,
`LoopLabel`, `SwitchLabel`, `SwitchCaseLabel`) are flattened to their
`String` identifiers throughout. -/

/-- Rust `ast::Type`. -/
inductive Ty
  | int
  | long
  | function (returnTy : Ty) (parameters : List Ty)
  deriving Repr

mutual

/-- Rust's derived `PartialEq` on `ast::Type` (the `==`/`!=` used by the
type checker). -/
def Ty.beq : Ty → Ty → Bool
  | .int, .int => true
  | .long, .long => true
  | .function r1 p1, .function r2 p2 =>
    Ty.beq r1 r2 && Ty.beqList p1 p2
  | _, _ => false

/-- Rust `PartialEq` on `Vec<Type>`. -/
def Ty.beqList : List Ty → List Ty → Bool
  | [], [] => true
  | t1 :: l1, t2 :: l2 => Ty.beq t1 t2 && Ty.beqList l1 l2
  | _, _ => false

end

/-- Rust `ast::StorageClass` (the `Extern` variant is named
`externStorage` here because `extern` is reserved). -/
inductive StorageClass
  | static
  | externStorage
  deriving Repr, DecidableEq

/-- Rust `ast::Constant` (`ConstantInt(i32)` / `ConstantLong(i64)`); the
carried machine integers are modelled as `Int` with explicit range
checks and wrapping at the creation sites. -/
inductive Constant
  | constantInt (n : Int)
  | constantLong (n : Int)
  deriving Repr, DecidableEq

/-- Rust `ast::UnaryOperator`. -/
inductive UnaryOperator
  | complement | negate | not
  | prefixIncrement | prefixDecrement | postfixIncrement | postfixDecrement
  deriving Repr, DecidableEq

/-- Rust `ast::BinaryOperator`. -/
inductive BinaryOperator
  | add | subtract | multiply | divide | remainder
  | bitwiseAnd | bitwiseOr | bitwiseXor | shiftLeft | shiftRight
  | logicalAnd | logicalOr
  | equal | notEqual | lessThan | lessOrEqual | greaterThan | greaterOrEqual
  deriving Repr, DecidableEq

/-- Rust `ast::AssignmentOperator`. -/
inductive AssignmentOperator
  | assign | addAssign | subtractAssign | multiplyAssign | divideAssign
  | remainderAssign | bitwiseAndAssign | bitwiseOrAssign | bitwiseXorAssign
  | shiftLeftAssign | shiftRightAssign
  deriving Repr, DecidableEq

namespace Parser

/-- Rust `ast::Expression` as constructed by `parser.rs` (no type slots). -/
inductive Expression
  | constant (c : Constant)
  | var (identifier : String)
  | cast (ty : Ty) (expr : Expression)
  | unary (op : UnaryOperator) (expr : Expression)
  | binary (op : BinaryOperator) (lhs rhs : Expression)
  | assignment (op : AssignmentOperator) (lhs rhs : Expression)
  | conditional (condition thenExpr elseExpr : Expression)
  | functionCall (identifier : String) (arguments : List Expression)

/-- Rust `parse_type_from_specifiers` (`parser.rs` lines 106-115). -/
def parseTypeFromSpecifiers : List Token → Except String Ty
  | [Token.intKeyword] => .ok .int
  | [Token.intKeyword, Token.longKeyword] => .ok .long
  | [Token.longKeyword, Token.intKeyword] => .ok .long
  | [Token.longKeyword] => .ok .long
  | [] => .error "Expected type specifier"
  | _ => .error "Invalid type specifier"

/-- The guard of the specifier-collecting loops: the token is
`IntKeyword` or `LongKeyword`. -/
def isTypeSpecifierToken : Token → Bool
  | .intKeyword | .longKeyword => true
  | _ => false

/-- Rust `matches_type_specifier` (`parser.rs` lines 149-151). -/
def matchesTypeSpecifier : Option Token → Bool
  | some t => isTypeSpecifierToken t
  | none => false

/-- The specifier-collecting loop of `parse_type` (`parser.rs` lines
96-104): pop tokens while the front is a type-specifier keyword. -/
def takeSpecifiers : List Token → List Token × List Token
  | [] => ([], [])
  | t :: ts =>
    if isTypeSpecifierToken t then
      let (s, r) := takeSpecifiers ts
      (t :: s, r)
    else ([], t :: ts)

/-- Rust `parse_type` (`parser.rs` lines 96-104). -/
def parseType (tokens : List Token) : Except String (Ty × List Token) :=
  let (specifiers, rest) := takeSpecifiers tokens
  (parseTypeFromSpecifiers specifiers).map fun ty => (ty, rest)

/-- Rust `parse_unary_prefix_operator` (`parser.rs` lines 732-741). -/
def parseUnaryPrefixOperator : List Token → Except String (UnaryOperator × List Token)
  | .tilde :: ts => .ok (.complement, ts)
  | .minus :: ts => .ok (.negate, ts)
  | .exclamation :: ts => .ok (.not, ts)
  | .plusPlus :: ts => .ok (.prefixIncrement, ts)
  | .minusMinus :: ts => .ok (.prefixDecrement, ts)
  | _ => .error "Expected unary prefix operator"

/-- Rust `parse_binary_operator` (`parser.rs` lines 751-773). -/
def parseBinaryOperator : List Token → Except String (BinaryOperator × List Token)
  | .plus :: ts => .ok (.add, ts)
  | .minus :: ts => .ok (.subtract, ts)
  | .asterisk :: ts => .ok (.multiply, ts)
  | .slash :: ts => .ok (.divide, ts)
  | .percent :: ts => .ok (.remainder, ts)
  | .ampersand :: ts => .ok (.bitwiseAnd, ts)
  | .pipe :: ts => .ok (.bitwiseOr, ts)
  | .caret :: ts => .ok (.bitwiseXor, ts)
  | .lessLess :: ts => .ok (.shiftLeft, ts)
  | .greaterGreater :: ts => .ok (.shiftRight, ts)
  | .ampersandAmpersand :: ts => .ok (.logicalAnd, ts)
  | .pipePipe :: ts => .ok (.logicalOr, ts)
  | .equalEqual :: ts => .ok (.equal, ts)
  | .exclamationEqual :: ts => .ok (.notEqual, ts)
  | .less :: ts => .ok (.lessThan, ts)
  | .lessEqual :: ts => .ok (.lessOrEqual, ts)
  | .greater :: ts => .ok (.greaterThan, ts)
  | .greaterEqual :: ts => .ok (.greaterOrEqual, ts)
  | _ => .error "Expected binary operator"

/-- Rust `parse_assignment_operator` (`parser.rs` lines 775-790). -/
def parseAssignmentOperator : List Token → Except String (AssignmentOperator × List Token)
  | .equal :: ts => .ok (.assign, ts)
  | .plusEqual :: ts => .ok (.addAssign, ts)
  | .minusEqual :: ts => .ok (.subtractAssign, ts)
  | .asteriskEqual :: ts => .ok (.multiplyAssign, ts)
  | .slashEqual :: ts => .ok (.divideAssign, ts)
  | .percentEqual :: ts => .ok (.remainderAssign, ts)
  | .ampersandEqual :: ts => .ok (.bitwiseAndAssign, ts)
  | .pipeEqual :: ts => .ok (.bitwiseOrAssign, ts)
  | .caretEqual :: ts => .ok (.bitwiseXorAssign, ts)
  | .lessLessEqual :: ts => .ok (.shiftLeftAssign, ts)
  | .greaterGreaterEqual :: ts => .ok (.shiftRightAssign, ts)
  | _ => .error "Expected assignment operator"

/-- The precedence table of `parse_expression` (`parser.rs` lines
549-573); `none` means the token does not continue an expression. -/
def tokenPrecedence : Token → Option Nat
  | .equal | .plusEqual | .minusEqual | .asteriskEqual | .slashEqual
  | .percentEqual | .ampersandEqual | .pipeEqual | .caretEqual
  | .lessLessEqual | .greaterGreaterEqual => some 1
  | .question => some 2
  | .pipePipe => some 3
  | .ampersandAmpersand => some 4
  | .pipe => some 5
  | .caret => some 6
  | .ampersand => some 7
  | .equalEqual | .exclamationEqual => some 8
  | .less | .lessEqual | .greater | .greaterEqual => some 9
  | .lessLess | .greaterGreater => some 10
  | .plus | .minus => some 11
  | .asterisk | .slash | .percent => some 12
  | _ => none

/-- The assignment-operator token guard used in `parse_expression`
(`parser.rs` lines 580-590). -/
def isAssignmentToken : Token → Bool
  | .equal | .plusEqual | .minusEqual | .asteriskEqual | .slashEqual
  | .percentEqual | .ampersandEqual | .pipeEqual | .caretEqual
  | .lessLessEqual | .greaterGreaterEqual => true
  | _ => false

/-- Rust `*token == Token::Question` in `parse_expression` (the derived
`PartialEq` applied at this one variant). -/
def isQuestionToken : Token → Bool
  | .question => true
  | _ => false

/-- The unary-prefix token guard of `parse_factor` (`parser.rs` lines
708-710). -/
def isUnaryPrefixToken : Token → Bool
  | .tilde | .minus | .exclamation | .plusPlus | .minusMinus => true
  | _ => false

/-- Rust `str::parse::<i64>` on the text of a constant token (`parser.rs`
lines 661, 672).  Constant tokens hold the `[0-9]+` match of the lexer,
so the model covers unsigned digit strings: the parse fails on an empty
or non-digit string and on overflow past `i64::MAX =
9223372036854775807`. -/
def rustParseI64 (s : String) : Option Int :=
  if !s.toList.isEmpty && s.toList.all Char.isDigit then
    let n : Nat := Lexer.digitsVal s.toList
    if n ≤ 9223372036854775807 then some (n : Int) else none
  else none

/-- Rust `i64::try_into::<i32>` succeeds exactly on the `i32` range. -/
def fitsI32 (n : Int) : Bool :=
  -2147483648 ≤ n && n ≤ 2147483647

/-- The postfix `++`/`--` loop at the end of `parse_factor`
(`parser.rs` lines 721-727). -/
def parsePostfix (factor : Expression) : List Token → Expression × List Token
  | .plusPlus :: ts => parsePostfix (.unary .postfixIncrement factor) ts
  | .minusMinus :: ts => parsePostfix (.unary .postfixDecrement factor) ts
  | ts => (factor, ts)

mutual

/-- Rust `parse_expression` (`parser.rs` lines 543-630): parse a factor, then
run the precedence-climbing loop. -/
def parseExpression (fuel : Nat) (tokens : List Token) (minPrec : Nat) :
    Except String (Expression × List Token) :=
  match fuel with
  | 0 => .error "FUEL"
  | fuel + 1 => do
    let (left, ts) ← parseFactor fuel tokens
    parseExpressionLoop fuel left ts minPrec

/-- The `while let Some(t) = tokens.front()` loop of `parse_expression`. -/
def parseExpressionLoop (fuel : Nat) (left : Expression) (tokens : List Token)
    (minPrec : Nat) : Except String (Expression × List Token) :=
  match fuel with
  | 0 => .error "FUEL"
  | fuel + 1 =>
    match tokens with
    | [] => .ok (left, [])
    | t :: ts =>
      match tokenPrecedence t with
      | none => .ok (left, t :: ts)
      | some prec =>
        if prec < minPrec then .ok (left, t :: ts)
        else if isAssignmentToken t then do
          let (op, ts1) ← parseAssignmentOperator (t :: ts)
          let (right, ts2) ← parseExpression fuel ts1 prec
          parseExpressionLoop fuel (.assignment op left right) ts2 minPrec
        else if isQuestionToken t then do
          let (thenExpr, ts1) ← parseExpression fuel ts 0
          match ts1 with
          | Token.colon :: ts2 => do
            let (elseExpr, ts3) ← parseExpression fuel ts2 prec
            parseExpressionLoop fuel (.conditional left thenExpr elseExpr) ts3 minPrec
          | _ => .error "Expected colon"
        else do
          let (op, ts1) ← parseBinaryOperator (t :: ts)
          let (right, ts2) ← parseExpression fuel ts1 (prec + 1)
          parseExpressionLoop fuel (.binary op left right) ts2 minPrec

/-- Rust `parse_factor` (`parser.rs` lines 632-730). -/
def parseFactor (fuel : Nat) (tokens : List Token) :
    Except String (Expression × List Token) :=
  match fuel with
  | 0 => .error "FUEL"
  | fuel + 1 => do
    let (factor, ts) ←
      (match tokens with
      | Token.openParen :: ts =>
        if matchesTypeSpecifier ts.head? then do
          let (ty, ts1) ← parseType ts
          match ts1 with
          | Token.closeParen :: ts2 => do
            let (expr, ts3) ← parseExpression fuel ts2 0
            pure (Expression.cast ty expr, ts3)
          | _ => .error "Expected closing parenthesis"
        else do
          let (inner, ts1) ← parseExpression fuel ts 0
          match ts1 with
          | Token.closeParen :: ts2 => pure (inner, ts2)
          | _ => .error "Expected close parenthesis"
      | Token.constantInt v :: ts =>
        match rustParseI64 v with
        | some n =>
          if fitsI32 n then pure (Expression.constant (.constantInt n), ts)
          else pure (Expression.constant (.constantLong n), ts)
        | none => .error "Invalid integer"
      | Token.constantLong v :: ts =>
        match rustParseI64 v with
        | some n => pure (Expression.constant (.constantLong n), ts)
        | none => .error "Invalid integer"
      | Token.identifier id :: Token.openParen :: ts1 => do
        let (args, ts2) ←
          (match ts1 with
          | Token.closeParen :: _ => pure (([] : List Expression), ts1)
          | _ => parseArguments fuel ts1)
        match ts2 with
        | Token.closeParen :: ts3 => pure (Expression.functionCall id args, ts3)
        | _ => .error "Expected close parenthesis"
      | Token.identifier id :: ts => pure (Expression.var id, ts)
      | t :: ts' =>
        if isUnaryPrefixToken t then do
          let (op, ts1) ← parseUnaryPrefixOperator (t :: ts')
          let (inner, ts2) ← parseFactor fuel ts1
          pure (Expression.unary op inner, ts2)
        else .error "Expected factor"
      | [] => .error "Expected factor")
    pure (parsePostfix factor ts)

/-- The argument-collecting loop inside the `FunctionCall` branch of
`parse_factor` (`parser.rs` lines 685-693). -/
def parseArguments (fuel : Nat) (tokens : List Token) :
    Except String (List Expression × List Token) :=
  match fuel with
  | 0 => .error "FUEL"
  | fuel + 1 => do
    let (arg, ts) ← parseExpression fuel tokens 0
    match ts with
    | Token.comma :: ts1 => do
      let (args, ts2) ← parseArguments fuel ts1
      pure (arg :: args, ts2)
    | _ => pure ([arg], ts)

end

end Parser

/-! ### Claim theorems about the parser -/

/-- The token sequence of the source fragment `(int) x + 1`. -/
def c3CastTokens : List Token :=
  [.openParen, .intKeyword, .closeParen, .identifier "x", .plus, .constantInt "1"]

/-- C3 evaluation: the cast branch of `parse_factor` parses its operand
with `parse_expression(tokens, 0)`, so the whole following expression —
not just one factor — becomes the cast operand: `(int) x + 1` parses as
`(int)(x + 1)`, which differs from the claimed `((int) x) + 1`. -/
theorem C3_cast_operand_is_full_expression :
    Parser.parseExpression 32 c3CastTokens 0 =
      .ok (.cast .int (.binary .add (.var "x") (.constant (.constantInt 1))), []) ∧
    Parser.Expression.cast .int
        (.binary .add (.var "x") (.constant (.constantInt 1))) ≠
      Parser.Expression.binary .add (.cast .int (.var "x"))
        (.constant (.constantInt 1)) :=
  ⟨rfl, fun h => nomatch h⟩

/-- C10: an unsuffixed (`ConstantInt`) token whose digit string fits in
32 signed bits parses to `Constant::ConstantInt`; one that fits only in
64 signed bits is silently promoted to `Constant::ConstantLong`; one
that overflows `i64` is the parse error `"Invalid integer"`; a suffixed
(`ConstantLong`) token always yields `ConstantLong` (or the same
overflow error). -/
theorem C10_constant_token_widths (s : String)
    (hdig : s.toList.all Char.isDigit = true) (hne : s.toList.isEmpty = false) :
    (Lexer.digitsVal s.toList ≤ 2147483647 →
      Parser.parseFactor 1 [Token.constantInt s] =
        .ok (.constant (.constantInt (Lexer.digitsVal s.toList)), [])) ∧
    (2147483647 < Lexer.digitsVal s.toList →
      Lexer.digitsVal s.toList ≤ 9223372036854775807 →
      Parser.parseFactor 1 [Token.constantInt s] =
        .ok (.constant (.constantLong (Lexer.digitsVal s.toList)), [])) ∧
    (9223372036854775807 < Lexer.digitsVal s.toList →
      Parser.parseFactor 1 [Token.constantInt s] = .error "Invalid integer") ∧
    (Lexer.digitsVal s.toList ≤ 9223372036854775807 →
      Parser.parseFactor 1 [Token.constantLong s] =
        .ok (.constant (.constantLong (Lexer.digitsVal s.toList)), [])) ∧
    (9223372036854775807 < Lexer.digitsVal s.toList →
      Parser.parseFactor 1 [Token.constantLong s] = .error "Invalid integer") := by
  have hne' : ¬s.data = [] := by
    simpa [String.toList, List.isEmpty_iff] using hne
  have hdig' : ∀ x ∈ s.data, x.isDigit = true := by
    simpa [String.toList, List.all_eq_true] using hdig
  have hparse : ∀ _ : Lexer.digitsVal s.toList ≤ 9223372036854775807,
      Parser.rustParseI64 s = some (Lexer.digitsVal s.toList : Int) := by
    intro hle
    unfold Parser.rustParseI64
    rw [if_pos (by simp only [Bool.and_eq_true]; exact ⟨by simpa using hne', by simpa using hdig'⟩), if_pos hle]
  have hparse' : ∀ _ : 9223372036854775807 < Lexer.digitsVal s.toList,
      Parser.rustParseI64 s = none := by
    intro hlt
    unfold Parser.rustParseI64
    rw [if_pos (by simp only [Bool.and_eq_true]; exact ⟨by simpa using hne', by simpa using hdig'⟩), if_neg (by omega)]
  refine ⟨?_, ?_, ?_, ?_, ?_⟩
  · intro h32
    simp only [Parser.parseFactor, hparse (by omega)]
    rw [if_pos ?_]
    · rfl
    · unfold Parser.fitsI32
      have h0 : (0 : Int) ≤ (Lexer.digitsVal s.toList : Int) := Int.ofNat_nonneg _
      have h1 : (Lexer.digitsVal s.toList : Int) ≤ 2147483647 := by exact_mod_cast h32
      simp only [Bool.and_eq_true, decide_eq_true_eq]
      omega
  · intro hgt hle
    simp only [Parser.parseFactor, hparse hle]
    rw [if_neg ?_]
    · rfl
    · unfold Parser.fitsI32
      have h1 : (2147483647 : Int) < (Lexer.digitsVal s.toList : Int) := by exact_mod_cast hgt
      simp only [Bool.and_eq_true, decide_eq_true_eq]
      omega
  · intro hlt
    simp only [Parser.parseFactor, hparse' hlt]
    rfl
  · intro hle
    simp only [Parser.parseFactor, hparse hle]
    rfl
  · intro hlt
    simp only [Parser.parseFactor, hparse' hlt]
    rfl

/-- Witness for C10 at the inputs `42` (stays int), `2147483648`
(promoted to long), and `9223372036854775808` (overflow error). -/
theorem C10_constant_token_widths_witness :
    Parser.parseFactor 1 [Token.constantInt "42"] =
      .ok (.constant (.constantInt (Lexer.digitsVal "42".toList)), []) ∧
    Parser.parseFactor 1 [Token.constantInt "2147483648"] =
      .ok (.constant (.constantLong (Lexer.digitsVal "2147483648".toList)), []) ∧
    Parser.parseFactor 1 [Token.constantInt "9223372036854775808"] =
      .error "Invalid integer" :=
  ⟨(C10_constant_token_widths "42" (by decide) (by decide)).1 (by decide),
   (C10_constant_token_widths "2147483648" (by decide) (by decide)).2.1
     (by decide) (by decide),
   (C10_constant_token_widths "9223372036854775808" (by decide)
     (by decide)).2.2.1 (by decide)⟩

/-! ## Symbol table (`src/compiler/symbols.rs`)

The symbol table consumed by the TAC generator and codegen.  The
`HashMap<String, Symbol>` is modelled as its list of entries in
iteration order: `get` looks up by key, and `iter` (used by
`TackyGen::handle_program`) is the list itself.  Keeping the iteration
order as data lets theorems quantify over it — `symbols.rs` imposes no
order on `entries.iter()`. -/

/-- Rust `symbols::SymbolInitialValue` (`Tentative` / `Initial(i64)` /
`None`). -/
inductive SymbolInitialValue
  | tentative
  | initial (n : Int)
  | none
  deriving Repr

/-- Rust `symbols::SymbolAttributes`. -/
inductive SymbolAttributes
  | function (defined : Bool) (global : Bool)
  | static (initial : SymbolInitialValue) (global : Bool)
  | localAttr
  deriving Repr

/-- Rust `symbols::Symbol`. -/
structure Symbol where
  ty : Ty
  attrs : SymbolAttributes
  deriving Repr

/-- Rust `symbols::SymbolTable` as its entry list in iteration order. -/
abbrev SymbolTable := List (String × Symbol)

/-- Rust `SymbolTable::get`. -/
def SymbolTable.get (st : SymbolTable) (identifier : String) : Option Symbol :=
  ((st : List (String × Symbol)).find? fun e => e.1 = identifier).map (·.2)

/-! ## AST of the tackygen revision

`identifier_resolution.rs`, `label_resolution.rs` and `tackygen.rs`
build and match AST expressions with tuple-style constants
(`Expression::Constant(value)` holding the 64-bit value directly), no
`Cast` nodes, and no type-annotation slots, and function declarations
without a `ty` field — the AST revision before `long` support.  That
AST is embedded here as namespace `TG`. -/

namespace TG

/-- Rust `ast::Expression` of the tackygen revision. -/
inductive Expression
  | constant (value : Int)
  | var (identifier : String)
  | unary (op : UnaryOperator) (expr : Expression)
  | binary (op : BinaryOperator) (lhs rhs : Expression)
  | assignment (op : AssignmentOperator) (lhs rhs : Expression)
  | conditional (condition thenExpr elseExpr : Expression)
  | functionCall (identifier : String) (arguments : List Expression)
  deriving Repr

/-- Rust `ast::LoopOrSwitchLabel`. -/
inductive LoopOrSwitchLabel
  | loop (identifier : String)
  | switchLabel (identifier : String)
  deriving Repr

/-- Rust `ast::SwitchCases`: collected case expressions with their labels,
and the optional default label. -/
structure SwitchCases where
  cases : List (Expression × String)
  defaultCase : Option String
  deriving Repr

/-- Rust `ast::VariableDeclaration` of this revision (no `ty` field). -/
structure VariableDeclaration where
  identifier : String
  initializer : Option Expression
  storageClass : Option StorageClass
  deriving Repr

/-- Rust `ast::ForInitializer`. -/
inductive ForInitializer
  | variableDeclaration (vd : VariableDeclaration)
  | expression (e : Expression)
  deriving Repr

mutual

/-- Rust `ast::Statement`.  `Block` is inlined as `List BlockItem`. -/
inductive Statement
  | ret (e : Expression)
  | expression (e : Expression)
  | ifStmt (condition : Expression) (thenBranch : Statement)
      (elseBranch : Option Statement)
  | goto (label : String)
  | labeled (label : String) (stmt : Statement)
  | compound (block : List BlockItem)
  | breakStmt (label : Option LoopOrSwitchLabel)
  | continueStmt (label : Option String)
  | whileStmt (condition : Expression) (body : Statement) (label : Option String)
  | doWhile (body : Statement) (condition : Expression) (label : Option String)
  | forStmt (initializer : Option ForInitializer) (condition : Option Expression)
      (post : Option Expression) (body : Statement) (label : Option String)
  | switch (expression : Expression) (body : Statement)
      (cases : Option SwitchCases) (label : Option String)
  | caseStmt (expression : Expression) (body : Statement) (label : Option String)
  | defaultStmt (body : Statement) (label : Option String)
  | null

/-- Rust `ast::BlockItem`. -/
inductive BlockItem
  | statement (s : Statement)
  | declaration (d : Declaration)

/-- Rust `ast::Declaration`. -/
inductive Declaration
  | variableDecl (vd : VariableDeclaration)
  | functionDecl (fd : FunctionDeclaration)

/-- Rust `ast::FunctionDeclaration` of this revision (no `ty` field). -/
inductive FunctionDeclaration
  | mk (identifier : String) (parameters : List String)
      (body : Option (List BlockItem)) (storageClass : Option StorageClass)

end

/-- The `identifier` field of a `FunctionDeclaration`. -/
def FunctionDeclaration.identifier : FunctionDeclaration → String
  | .mk identifier _ _ _ => identifier

/-- The `parameters` field of a `FunctionDeclaration`. -/
def FunctionDeclaration.parameters : FunctionDeclaration → List String
  | .mk _ parameters _ _ => parameters

/-- The `body` field of a `FunctionDeclaration`. -/
def FunctionDeclaration.body : FunctionDeclaration → Option (List BlockItem)
  | .mk _ _ body _ => body

/-- The `storage_class` field of a `FunctionDeclaration`. -/
def FunctionDeclaration.storageClass : FunctionDeclaration → Option StorageClass
  | .mk _ _ _ storageClass => storageClass

/-- Rust `ast::Program`. -/
structure Program where
  declarations : List Declaration

end TG

/-! ## Label resolution (`src/compiler/semantic/label_resolution.rs`)

The per-function two-phase goto-label rewrite.  The `&mut self` counter
and the `&mut LabelMap` are threaded explicitly.  The `Switch`, `Case`
and `Default` statement arms of both phases are `todo!()` in the
source, i.e. panics. -/

namespace LabelResolver

/-- Rust `type LabelMap = HashMap<String, String>` modelled as an entry
list; only `contains_key`, `insert` and `get` are used. -/
abbrev LabelMap := List (String × String)

/-- Rust `HashMap::contains_key`. -/
def LabelMap.containsKey (m : LabelMap) (k : String) : Bool :=
  (m : List (String × String)).any fun e => e.1 = k

/-- Rust `HashMap::get`. -/
def LabelMap.get (m : LabelMap) (k : String) : Option String :=
  ((m : List (String × String)).find? fun e => e.1 = k).map (·.2)

/-- Rust `HashMap::insert`, on the entry list: overwrite the entry with the
given key, or append a new one. -/
def LabelMap.insertGo (k v : String) : List (String × String) → List (String × String)
  | [] => [(k, v)]
  | e :: rest => if e.1 = k then (k, v) :: rest else e :: LabelMap.insertGo k v rest

/-- Rust `HashMap::insert`. -/
def LabelMap.insert (m : LabelMap) (k v : String) : LabelMap :=
  LabelMap.insertGo k v m

/-- Modelled from the spec: the module `crate::compiler::constants`
(referenced by the semantic passes and `tackygen.rs`) is not in the
tree; spec §9 names the goto-label mangling prefix `SEMANTIC_LABEL`,
joined with `.` separators. -/
def SEMANTIC_LABEL_PREFIX : String := "SEMANTIC_LABEL"

/-- Rust `LabelResolver::fresh_label` (`label_resolution.rs` lines 32-40):
build `SEMANTIC_LABEL.<counter>.<suffix>` and bump the counter. -/
def freshLabel (counter : Nat) (suffix : Option String) : String × Nat :=
  (match suffix with
   | some sfx => SEMANTIC_LABEL_PREFIX ++ "." ++ toString counter ++ "." ++ sfx
   | none => SEMANTIC_LABEL_PREFIX ++ "." ++ toString counter,
   counter + 1)

open TG

mutual

/-- Rust `rewrite_label_in_statement` (`label_resolution.rs` lines 78-155).
Phase 1: rename `Labeled` statements, recording the mapping; duplicate
labels are an error; `Switch`/`Case`/`Default` are `todo!()` (panic). -/
def rewriteLabelInStatement (c : Nat) (m : LabelMap) :
    Statement → RRes (Statement × Nat × LabelMap)
  | .labeled label stmt =>
    if m.containsKey label then
      .error (.msg ("Label " ++ label ++ " already declared"))
    else
      let (newLabel, c1) := freshLabel c (some label)
      let m1 := m.insert label newLabel
      do
        let (s', c2, m2) ← rewriteLabelInStatement c1 m1 stmt
        pure (.labeled newLabel s', c2, m2)
  | .ifStmt condition thenBranch elseBranch => do
    let (t', c1, m1) ← rewriteLabelInStatement c m thenBranch
    match elseBranch with
    | some e => do
      let (e', c2, m2) ← rewriteLabelInStatement c1 m1 e
      pure (.ifStmt condition t' (some e'), c2, m2)
    | none => pure (.ifStmt condition t' none, c1, m1)
  | .compound block => do
    let (b', c1, m1) ← rewriteLabelInBlock c m block
    pure (.compound b', c1, m1)
  | .whileStmt condition body label => do
    let (b', c1, m1) ← rewriteLabelInStatement c m body
    pure (.whileStmt condition b' label, c1, m1)
  | .doWhile body condition label => do
    let (b', c1, m1) ← rewriteLabelInStatement c m body
    pure (.doWhile b' condition label, c1, m1)
  | .forStmt initializer condition post body label => do
    let (b', c1, m1) ← rewriteLabelInStatement c m body
    pure (.forStmt initializer condition post b' label, c1, m1)
  | .null => pure (.null, c, m)
  | .ret e => pure (.ret e, c, m)
  | .expression e => pure (.expression e, c, m)
  | .goto l => pure (.goto l, c, m)
  | .breakStmt l => pure (.breakStmt l, c, m)
  | .continueStmt l => pure (.continueStmt l, c, m)
  | .switch _ _ _ _ => .error .panic
  | .caseStmt _ _ _ => .error .panic
  | .defaultStmt _ _ => .error .panic

/-- Rust `rewrite_label_in_block` (`label_resolution.rs` lines 64-76):
rewrite the statements of a block in order; declarations are left
untouched. -/
def rewriteLabelInBlock (c : Nat) (m : LabelMap) :
    List BlockItem → RRes (List BlockItem × Nat × LabelMap)
  | [] => pure ([], c, m)
  | .statement stmt :: rest => do
    let (s', c1, m1) ← rewriteLabelInStatement c m stmt
    let (r', c2, m2) ← rewriteLabelInBlock c1 m1 rest
    pure (.statement s' :: r', c2, m2)
  | .declaration d :: rest => do
    let (r', c1, m1) ← rewriteLabelInBlock c m rest
    pure (.declaration d :: r', c1, m1)

end

mutual

/-- Rust `rewrite_goto_in_statement` (`label_resolution.rs` lines 171-247).
Phase 2: point every `Goto` at the renamed label; an unresolved goto is
an error; `Switch`/`Case`/`Default` are `todo!()` (panic). -/
def rewriteGotoInStatement (c : Nat) (m : LabelMap) :
    Statement → RRes (Statement × Nat × LabelMap)
  | .goto label =>
    match m.get label with
    | some newName => pure (.goto newName, c, m)
    | none => .error (.msg ("Label " ++ label ++ " not declared"))
  | .ifStmt condition thenBranch elseBranch => do
    let (t', c1, m1) ← rewriteGotoInStatement c m thenBranch
    match elseBranch with
    | some e => do
      let (e', c2, m2) ← rewriteGotoInStatement c1 m1 e
      pure (.ifStmt condition t' (some e'), c2, m2)
    | none => pure (.ifStmt condition t' none, c1, m1)
  | .labeled label stmt => do
    let (s', c1, m1) ← rewriteGotoInStatement c m stmt
    pure (.labeled label s', c1, m1)
  | .compound block => do
    let (b', c1, m1) ← rewriteGotoInBlock c m block
    pure (.compound b', c1, m1)
  | .whileStmt condition body label => do
    let (b', c1, m1) ← rewriteGotoInStatement c m body
    pure (.whileStmt condition b' label, c1, m1)
  | .doWhile body condition label => do
    let (b', c1, m1) ← rewriteGotoInStatement c m body
    pure (.doWhile b' condition label, c1, m1)
  | .forStmt initializer condition post body label => do
    let (b', c1, m1) ← rewriteGotoInStatement c m body
    pure (.forStmt initializer condition post b' label, c1, m1)
  | .null => pure (.null, c, m)
  | .ret e => pure (.ret e, c, m)
  | .expression e => pure (.expression e, c, m)
  | .breakStmt l => pure (.breakStmt l, c, m)
  | .continueStmt l => pure (.continueStmt l, c, m)
  | .switch _ _ _ _ => .error .panic
  | .caseStmt _ _ _ => .error .panic
  | .defaultStmt _ _ => .error .panic

/-- Rust `rewrite_goto_in_block` (`label_resolution.rs` lines 157-169). -/
def rewriteGotoInBlock (c : Nat) (m : LabelMap) :
    List BlockItem → RRes (List BlockItem × Nat × LabelMap)
  | [] => pure ([], c, m)
  | .statement stmt :: rest => do
    let (s', c1, m1) ← rewriteGotoInStatement c m stmt
    let (r', c2, m2) ← rewriteGotoInBlock c1 m1 rest
    pure (.statement s' :: r', c2, m2)
  | .declaration d :: rest => do
    let (r', c1, m1) ← rewriteGotoInBlock c m rest
    pure (.declaration d :: r', c1, m1)

end

/-- Rust `LabelResolver::handle_function_declaration` (`label_resolution.rs`
lines 42-62): for a function with a body, run phase 1 then phase 2 on a
fresh `LabelMap`. -/
def handleFunctionDeclaration (c : Nat) (fd : FunctionDeclaration) :
    RRes (FunctionDeclaration × Nat) :=
  match fd.body with
  | some body => do
    let (b1, c1, m1) ← rewriteLabelInBlock c [] body
    let (b2, c2, _) ← rewriteGotoInBlock c1 m1 b1
    pure (.mk fd.identifier fd.parameters (some b2) fd.storageClass, c2)
  | none => pure (fd, c)

/-- Rust `LabelResolver::analyze` (`label_resolution.rs` lines 18-30):
rewrite every function declaration of the program, threading the
fresh-label counter (starting at 0). -/
def analyze (program : TG.Program) : RRes TG.Program := do
  let rec go (c : Nat) : List Declaration → RRes (List Declaration × Nat)
    | [] => pure ([], c)
    | .functionDecl fd :: rest => do
      let (fd', c1) ← handleFunctionDeclaration c fd
      let (rest', c2) ← go c1 rest
      pure (.functionDecl fd' :: rest', c2)
    | .variableDecl vd :: rest => do
      let (rest', c1) ← go c rest
      pure (.variableDecl vd :: rest', c1)
  (go 0 program.declarations).map fun p => ⟨p.1⟩

end LabelResolver

/-! ## TAC (`src/compiler/tacky.rs`)

The instruction set of the three-address IR.  The `tacky.rs` in the
tree is from the revision before file-scope statics: it has no
`TopLevelItem`/`StaticVariable` and no `global` flag, all of which
`tackygen.rs` and `codegen.rs` use; those are modelled from spec §3
("a list of top-level items: function definitions (function name,
`global` flag, parameter list, instruction list) and static variables
(name, `global`, initial static value)"). -/

namespace Tacky

/-- Rust `tacky::Value`. -/
inductive Value
  | constant (n : Int)
  | var (identifier : String)
  deriving Repr, DecidableEq

/-- Rust `tacky::UnaryOperator`. -/
inductive UnaryOperator
  | complement | negate | not
  deriving Repr, DecidableEq

/-- Rust `tacky::BinaryOperator`. -/
inductive BinaryOperator
  | add | subtract | multiply | divide | remainder
  | bitwiseAnd | bitwiseOr | bitwiseXor | shiftLeft | shiftRight
  | equal | notEqual | lessThan | lessOrEqual | greaterThan | greaterOrEqual
  deriving Repr, DecidableEq

/-- Rust `tacky::Instruction` (destination variables flattened to `String`). -/
inductive Instruction
  | ret (value : Value)
  | unary (op : UnaryOperator) (src : Value) (dst : String)
  | binary (op : BinaryOperator) (lhs rhs : Value) (dst : String)
  | copy (src : Value) (dst : String)
  | jump (target : String)
  | jumpIfZero (condition : Value) (target : String)
  | jumpIfNotZero (condition : Value) (target : String)
  | label (l : String)
  | functionCall (function : String) (args : List Value) (dst : String)
  deriving Repr

/-- Rust `tacky::FunctionDefinition` with the `global` flag of spec §3. -/
structure FunctionDefinition where
  identifier : String
  global : Bool
  parameters : List String
  instructions : List Instruction
  deriving Repr

/-- Modelled from the spec (§3): `tacky::StaticVariable` (name,
`global`, initial value), absent from the stale `tacky.rs` but
constructed by `tackygen.rs`. -/
structure StaticVariable where
  identifier : String
  global : Bool
  initial : Int
  deriving Repr

/-- Modelled from the spec (§3): `tacky::TopLevelItem`. -/
inductive TopLevelItem
  | functionDefinition (fd : FunctionDefinition)
  | staticVariable (sv : StaticVariable)
  deriving Repr

/-- Rust `tacky::Program` as a list of top-level items (spec §3). -/
structure Program where
  items : List TopLevelItem
  deriving Repr

end Tacky

/-! ## TAC generation (`src/compiler/tackygen.rs`)

Lowers the AST (of the `TG` revision it matches on) to TAC.  The two
`&mut self` counters are threaded as a state record, and the `&mut Vec`
of instructions is passed in and returned (pushes append at the end).
`Switch`, `Case` and `Default` statements are `todo!()` (panic). -/

namespace TackyGen

/-- Modelled from the spec (§9): the TAC name-mangling prefixes of the
missing `constants.rs` (`TAC_VAR`, `TAC_LABEL`, `.`-separated). -/
def TAC_VAR_PREFIX : String := "TAC_VAR"

/-- Modelled from the spec (§9), like `TAC_VAR_PREFIX`. -/
def TAC_LABEL_PREFIX : String := "TAC_LABEL"

/-- The two fresh-name counters of `TackyGen` (`tackygen.rs` lines
12-15). -/
structure St where
  variableCounter : Nat
  labelCounter : Nat
  deriving Repr

/-- Rust `TackyGen::new`. -/
def St.new : St := ⟨0, 0⟩

/-- Rust `fresh_variable` (`tackygen.rs` lines 25-30). -/
def freshVariable (st : St) : String × St :=
  (TAC_VAR_PREFIX ++ "." ++ toString st.variableCounter,
   { st with variableCounter := st.variableCounter + 1 })

/-- Rust `fresh_label` (`tackygen.rs` lines 32-40). -/
def freshLabel (st : St) (suffix : Option String) : String × St :=
  (match suffix with
   | some sfx => TAC_LABEL_PREFIX ++ "." ++ toString st.labelCounter ++ "." ++ sfx
   | none => TAC_LABEL_PREFIX ++ "." ++ toString st.labelCounter,
   { st with labelCounter := st.labelCounter + 1 })

/-- Rust `break_label` (`tackygen.rs` lines 42-52). -/
def breakLabel : TG.LoopOrSwitchLabel → String
  | .loop identifier => identifier ++ ".break"
  | .switchLabel identifier => identifier ++ ".break"

/-- Rust `break_loop_label` (`tackygen.rs` lines 54-56). -/
def breakLoopLabel (identifier : String) : String :=
  breakLabel (.loop identifier)

/-- Rust `continue_label` (`tackygen.rs` lines 58-62). -/
def continueLabel (identifier : String) : String :=
  identifier ++ ".continue"

/-- Rust `handle_unary_operator` (`tackygen.rs` lines 614-624);
increment/decrement operators are `unreachable!()` (panic). -/
def handleUnaryOperator : UnaryOperator → RRes Tacky.UnaryOperator
  | .negate => .ok .negate
  | .complement => .ok .complement
  | .not => .ok .not
  | .prefixIncrement | .prefixDecrement
  | .postfixIncrement | .postfixDecrement => .error .panic

/-- Rust `handle_binary_operator` (`tackygen.rs` lines 626-646); the logical
operators are `unreachable!()` (panic). -/
def handleBinaryOperator : BinaryOperator → RRes Tacky.BinaryOperator
  | .add => .ok .add
  | .subtract => .ok .subtract
  | .multiply => .ok .multiply
  | .divide => .ok .divide
  | .remainder => .ok .remainder
  | .bitwiseAnd => .ok .bitwiseAnd
  | .bitwiseOr => .ok .bitwiseOr
  | .bitwiseXor => .ok .bitwiseXor
  | .shiftLeft => .ok .shiftLeft
  | .shiftRight => .ok .shiftRight
  | .equal => .ok .equal
  | .notEqual => .ok .notEqual
  | .lessThan => .ok .lessThan
  | .lessOrEqual => .ok .lessOrEqual
  | .greaterThan => .ok .greaterThan
  | .greaterOrEqual => .ok .greaterOrEqual
  | .logicalAnd | .logicalOr => .error .panic

/-- Rust `handle_assignment_operator` (`tackygen.rs` lines 648-662); plain
`Assign` is `unreachable!()` (panic). -/
def handleAssignmentOperator : AssignmentOperator → RRes Tacky.BinaryOperator
  | .assign => .error .panic
  | .addAssign => .ok .add
  | .subtractAssign => .ok .subtract
  | .multiplyAssign => .ok .multiply
  | .divideAssign => .ok .divide
  | .remainderAssign => .ok .remainder
  | .bitwiseAndAssign => .ok .bitwiseAnd
  | .bitwiseOrAssign => .ok .bitwiseOr
  | .bitwiseXorAssign => .ok .bitwiseXor
  | .shiftLeftAssign => .ok .shiftLeft
  | .shiftRightAssign => .ok .shiftRight

/-- The lvalue extraction used for increment/decrement and assignments
(`tackygen.rs` lines 361-366, 384-389, 525-530): the operand must be a
`Variable`, anything else is `unreachable!()` (panic). -/
def expectVariable : TG.Expression → RRes String
  | .var identifier => .ok identifier
  | _ => .error .panic

mutual

/-- Rust `handle_expression` (`tackygen.rs` lines 352-612). -/
def handleExpression (st : St) (ins : List Tacky.Instruction) :
    TG.Expression → RRes (Tacky.Value × St × List Tacky.Instruction)
  | .constant value => pure (.constant value, st, ins)
  | .unary op inner =>
    match op with
    | .prefixIncrement | .prefixDecrement => do
      let v ← expectVariable inner
      let top : Tacky.BinaryOperator :=
        match op with
        | .prefixIncrement => .add
        | _ => .subtract
      pure (.var v, st, ins ++ [.binary top (.var v) (.constant 1) v])
    | .postfixIncrement | .postfixDecrement => do
      let v ← expectVariable inner
      let (prev, st1) := freshVariable st
      let top : Tacky.BinaryOperator :=
        match op with
        | .postfixIncrement => .add
        | _ => .subtract
      pure (.var prev, st1,
        ins ++ [.copy (.var v) prev, .binary top (.var v) (.constant 1) v])
    | _ => do
      let (src, st1, ins1) ← handleExpression st ins inner
      let (dst, st2) := freshVariable st1
      let top ← handleUnaryOperator op
      pure (.var dst, st2, ins1 ++ [.unary top src dst])
  | .binary op lhs rhs =>
    match op with
    | .logicalAnd => do
      let (dst, st1) := freshVariable st
      let (labelFalse, st2) := freshLabel st1 (some "and_false")
      let (labelEnd, st3) := freshLabel st2 (some "and_end")
      let (lv, st4, ins1) ← handleExpression st3 ins lhs
      let ins2 := ins1 ++ [.jumpIfZero lv labelFalse]
      let (rv, st5, ins3) ← handleExpression st4 ins2 rhs
      pure (.var dst, st5,
        ins3 ++ [.jumpIfZero rv labelFalse,
          .copy (.constant 1) dst, .jump labelEnd, .label labelFalse,
          .copy (.constant 0) dst, .label labelEnd])
    | .logicalOr => do
      let (dst, st1) := freshVariable st
      let (labelTrue, st2) := freshLabel st1 (some "or_true")
      let (labelEnd, st3) := freshLabel st2 (some "or_end")
      let (lv, st4, ins1) ← handleExpression st3 ins lhs
      let ins2 := ins1 ++ [.jumpIfNotZero lv labelTrue]
      let (rv, st5, ins3) ← handleExpression st4 ins2 rhs
      pure (.var dst, st5,
        ins3 ++ [.jumpIfNotZero rv labelTrue,
          .copy (.constant 0) dst, .jump labelEnd, .label labelTrue,
          .copy (.constant 1) dst, .label labelEnd])
    | _ => do
      let (lv, st1, ins1) ← handleExpression st ins lhs
      let (rv, st2, ins2) ← handleExpression st1 ins1 rhs
      let (dst, st3) := freshVariable st2
      let top ← handleBinaryOperator op
      pure (.var dst, st3, ins2 ++ [.binary top lv rv dst])
  | .var identifier => pure (.var identifier, st, ins)
  | .assignment op lhs rhs => do
    let lhsVariable ← expectVariable lhs
    let (rhsValue, st1, ins1) ← handleExpression st ins rhs
    match op with
    | .assign =>
      pure (.var lhsVariable, st1, ins1 ++ [.copy rhsValue lhsVariable])
    | _ => do
      let top ← handleAssignmentOperator op
      pure (.var lhsVariable, st1,
        ins1 ++ [.binary top (.var lhsVariable) rhsValue lhsVariable])
  | .conditional condition thenExpr elseExpr => do
    let (dst, st1) := freshVariable st
    let (labelElse, st2) := freshLabel st1 (some "cond_else")
    let (labelEnd, st3) := freshLabel st2 (some "cond_end")
    let (cv, st4, ins1) ← handleExpression st3 ins condition
    let ins2 := ins1 ++ [.jumpIfZero cv labelElse]
    let (tv, st5, ins3) ← handleExpression st4 ins2 thenExpr
    let ins4 := ins3 ++ [.copy tv dst, .jump labelEnd, .label labelElse]
    let (ev, st6, ins5) ← handleExpression st5 ins4 elseExpr
    pure (.var dst, st6, ins5 ++ [.copy ev dst, .label labelEnd])
  | .functionCall fname arguments => do
    let (dst, st1) := freshVariable st
    let (args, st2, ins1) ← handleExpressionArgs st1 ins arguments
    pure (.var dst, st2, ins1 ++ [.functionCall fname args dst])

/-- The argument-evaluation loop of the `FunctionCall` arm
(`tackygen.rs` lines 595-599). -/
def handleExpressionArgs (st : St) (ins : List Tacky.Instruction) :
    List TG.Expression → RRes (List Tacky.Value × St × List Tacky.Instruction)
  | [] => pure ([], st, ins)
  | e :: rest => do
    let (v, st1, ins1) ← handleExpression st ins e
    let (vs, st2, ins2) ← handleExpressionArgs st1 ins1 rest
    pure (v :: vs, st2, ins2)

/-- Rust `handle_statement` (`tackygen.rs` lines 188-350).  The `Switch`,
`Case` and `Default` arms are `todo!()` (panic, lines 346-348). -/
def handleStatement (st : St) (ins : List Tacky.Instruction) :
    TG.Statement → RRes (St × List Tacky.Instruction)
  | .ret e => do
    let (v, st1, ins1) ← handleExpression st ins e
    pure (st1, ins1 ++ [.ret v])
  | .expression e => do
    let (_, st1, ins1) ← handleExpression st ins e
    pure (st1, ins1)
  | .ifStmt condition thenBranch elseBranch =>
    match elseBranch with
    | some elseB => do
      let (elseLabel, st1) := freshLabel st (some "if_else")
      let (endLabel, st2) := freshLabel st1 (some "if_end")
      let (cv, st3, ins1) ← handleExpression st2 ins condition
      let (st4, ins2) ← handleStatement st3 (ins1 ++ [.jumpIfZero cv elseLabel]) thenBranch
      let (st5, ins3) ←
        handleStatement st4 (ins2 ++ [.jump endLabel, .label elseLabel]) elseB
      pure (st5, ins3 ++ [.label endLabel])
    | none => do
      let (endLabel, st1) := freshLabel st (some "if_end")
      let (cv, st2, ins1) ← handleExpression st1 ins condition
      let (st3, ins2) ← handleStatement st2 (ins1 ++ [.jumpIfZero cv endLabel]) thenBranch
      pure (st3, ins2 ++ [.label endLabel])
  | .goto label => pure (st, ins ++ [.jump label])
  | .labeled label stmt => do
    handleStatement st (ins ++ [.label label]) stmt
  | .compound block => handleBlock st ins block
  | .breakStmt label =>
    match label with
    | some l => pure (st, ins ++ [.jump (breakLabel l)])
    | none => .error .panic
  | .continueStmt label =>
    match label with
    | some l => pure (st, ins ++ [.jump (continueLabel l)])
    | none => .error .panic
  | .whileStmt condition body label =>
    match label with
    | some l => do
      let (cv, st1, ins1) ← handleExpression st (ins ++ [.label (continueLabel l)]) condition
      let (st2, ins2) ←
        handleStatement st1 (ins1 ++ [.jumpIfZero cv (breakLoopLabel l)]) body
      pure (st2, ins2 ++ [.jump (continueLabel l), .label (breakLoopLabel l)])
    | none => .error .panic
  | .doWhile body condition label =>
    match label with
    | some l => do
      let (startLabel, st1) := freshLabel st (some "do_while_start")
      let (st2, ins1) ← handleStatement st1 (ins ++ [.label startLabel]) body
      let (cv, st3, ins2) ←
        handleExpression st2 (ins1 ++ [.label (continueLabel l)]) condition
      pure (st3, ins2 ++ [.jumpIfNotZero cv startLabel, .label (breakLoopLabel l)])
    | none => .error .panic
  | .forStmt initializer condition post body label =>
    match label with
    | some l => do
      let (startLabel, st1) := freshLabel st (some "for_start")
      let (st2, ins1) ←
        (match initializer with
        | some (.variableDeclaration vd) =>
          handleBlockLevelVariableDeclaration st1 ins vd
        | some (.expression e) => do
          let (_, st', ins') ← handleExpression st1 ins e
          pure (st', ins')
        | none => pure (st1, ins))
      let ins2 := ins1 ++ [.label startLabel]
      let (st3, ins3) ←
        (match condition with
        | some cond => do
          let (cv, st', ins') ← handleExpression st2 ins2 cond
          pure (st', ins' ++ [.jumpIfZero cv (breakLoopLabel l)])
        | none => pure (st2, ins2))
      let (st4, ins4) ← handleStatement st3 ins3 body
      let ins5 := ins4 ++ [.label (continueLabel l)]
      let (st5, ins6) ←
        (match post with
        | some p => do
          let (_, st', ins') ← handleExpression st4 ins5 p
          pure (st', ins')
        | none => pure (st4, ins5))
      pure (st5, ins6 ++ [.jump startLabel, .label (breakLoopLabel l)])
    | none => .error .panic
  | .null => pure (st, ins)
  | .switch _ _ _ _ => .error .panic
  | .caseStmt _ _ _ => .error .panic
  | .defaultStmt _ _ => .error .panic

/-- Rust `handle_block` (`tackygen.rs` lines 139-154). -/
def handleBlock (st : St) (ins : List Tacky.Instruction) :
    List TG.BlockItem → RRes (St × List Tacky.Instruction)
  | [] => pure (st, ins)
  | .declaration d :: rest => do
    let (st1, ins1) ← handleBlockLevelDeclaration st ins d
    handleBlock st1 ins1 rest
  | .statement stmt :: rest => do
    let (st1, ins1) ← handleStatement st ins stmt
    handleBlock st1 ins1 rest

/-- Rust `handle_block_level_declaration` (`tackygen.rs` lines 156-165). -/
def handleBlockLevelDeclaration (st : St) (ins : List Tacky.Instruction) :
    TG.Declaration → RRes (St × List Tacky.Instruction)
  | .variableDecl vd => handleBlockLevelVariableDeclaration st ins vd
  | .functionDecl _ => pure (st, ins)

/-- Rust `handle_block_level_variable_declaration` (`tackygen.rs` lines
167-186): declarations with a storage class emit nothing; an
initializer lowers to its value copied into the variable. -/
def handleBlockLevelVariableDeclaration (st : St) (ins : List Tacky.Instruction) :
    TG.VariableDeclaration → RRes (St × List Tacky.Instruction)
  | vd =>
    if vd.storageClass.isSome then pure (st, ins)
    else
      match vd.initializer with
      | some initializer => do
        let (v, st1, ins1) ← handleExpression st ins initializer
        pure (st1, ins1 ++ [.copy v vd.identifier])
      | none => pure (st, ins)

end

/-- Rust `handle_top_level_function_declaration` (`tackygen.rs` lines
104-137): skip declarations without a body; lower the body, append
`Return(Constant(0))`, and read the `global` flag from the symbol
table (`unwrap`/`unreachable!()` panics when the symbol is missing or
not a function). -/
def handleTopLevelFunctionDeclaration (st : St) (symbols : SymbolTable)
    (fd : TG.FunctionDeclaration) : RRes (Option Tacky.FunctionDefinition × St) :=
  match fd.body with
  | none => pure (none, st)
  | some body => do
    let (st1, ins1) ← handleBlock st [] body
    let instructions := ins1 ++ [.ret (.constant 0)]
    let symbol ← runwrap (symbols.get fd.identifier)
    match symbol.attrs with
    | .function _ global =>
      pure (some ⟨fd.identifier, global, fd.parameters, instructions⟩, st1)
    | _ => .error .panic

/-- The function-declaration loop of `handle_program` (`tackygen.rs`
lines 67-73). -/
def handleProgramFunctions (st : St) (symbols : SymbolTable) :
    List TG.Declaration → RRes (List Tacky.TopLevelItem × St)
  | [] => pure ([], st)
  | .functionDecl fd :: rest => do
    let (odef, st1) ← handleTopLevelFunctionDeclaration st symbols fd
    let (items, st2) ← handleProgramFunctions st1 symbols rest
    match odef with
    | some d => pure (.functionDefinition d :: items, st2)
    | none => pure (items, st2)
  | .variableDecl _ :: rest => handleProgramFunctions st symbols rest

/-- The static-variable loop of `handle_program` (`tackygen.rs` lines
75-99): walk the symbol table in iteration order; `Static` entries with
`Tentative` initials become zero-initialized static variables,
`Initial(i)` entries keep their value, `None` entries and non-static
entries contribute nothing. -/
def staticItems : List (String × Symbol) → List Tacky.TopLevelItem
  | [] => []
  | (identifier, symbol) :: rest =>
    (match symbol.attrs with
     | .static initial global =>
       match initial with
       | .tentative => [.staticVariable ⟨identifier, global, 0⟩]
       | .initial i => [.staticVariable ⟨identifier, global, i⟩]
       | .none => []
     | _ => []) ++ staticItems rest

/-- Rust `handle_program` (`tackygen.rs` lines 64-102): the lowered function
definitions in program order, followed by the statics in symbol-table
iteration order. -/
def handleProgram (st : St) (program : TG.Program) (symbols : SymbolTable) :
    RRes (Tacky.Program × St) := do
  let (fitems, st1) ← handleProgramFunctions st symbols program.declarations
  pure (⟨fitems ++ staticItems symbols⟩, st1)

/-- Rust `generate` (`tackygen.rs` lines 8-10). -/
def generate (program : TG.Program) (symbols : SymbolTable) : RRes Tacky.Program :=
  (handleProgram St.new program symbols).map (·.1)

end TackyGen

/-! ### Claim theorems about label resolution and TAC generation of
`switch` statements -/

/-- The body of scenario 6 of the spec,
`int main(void) { int x = 2; switch (x) { case 1: return 10;
case 2: return 20; default: return 99; } }`, as the AST revision that
`label_resolution.rs` and `tackygen.rs` operate on. -/
def c1SwitchStatement : TG.Statement :=
  .switch (.var "x")
    (.compound
      [ .statement (.caseStmt (.constant 1) (.ret (.constant 10)) none)
      , .statement (.caseStmt (.constant 2) (.ret (.constant 20)) none)
      , .statement (.defaultStmt (.ret (.constant 99)) none) ])
    none none

/-- The whole program of scenario 6. -/
def c1Program : TG.Program :=
  ⟨[ .functionDecl (.mk "main" []
      (some
        [ .declaration (.variableDecl ⟨"x", some (.constant 2), none⟩)
        , .statement c1SwitchStatement ])
      none) ]⟩

/-- C1 evaluation: on the switch program of spec scenario 6, the
label-resolution pass panics (`todo!()` in
`rewrite_label_in_statement`), and TAC generation of the switch
statement panics as well (`todo!()` in `handle_statement`) — the
pipeline does not run to completion and produces no executable. -/
theorem C1_switch_program_panics :
    LabelResolver.analyze c1Program = .error .panic ∧
    TackyGen.handleStatement TackyGen.St.new [] c1SwitchStatement = .error .panic ∧
    TackyGen.generate c1Program [("main", ⟨.function .int [], .function true true⟩)] =
      .error .panic :=
  ⟨rfl, rfl, rfl⟩

/-! ## Machine IR (`src/compiler/asm.rs`)

The `asm.rs` in the tree is from the revision before statics: it lacks
`Operand::Data`, `TopLevelItem`, `StaticVariable` and the `global`
flag, all of which `codegen.rs` and `emitter.rs` use; those are
modelled from spec §3 ("Operands: `Imm(int64)`, `Reg(r)`,
`Pseudo(name)`, `Stack(offset)`, `Data(name)` (for statics)"; "a
program is a list of top-level items (function definition, static
variable)"). -/

namespace Asm

/-- Rust `asm::Reg`. -/
inductive Reg
  | ax | cx | dx | di | si | r8 | r9 | r10 | r11
  deriving Repr, DecidableEq

/-- Rust `asm::Operand` (with the spec-§3 `Data` operand). -/
inductive Operand
  | imm (n : Int)
  | reg (r : Reg)
  | pseudo (name : String)
  | stack (offset : Int)
  | data (identifier : String)
  deriving Repr, DecidableEq

/-- Rust `asm::UnaryOperator`. -/
inductive UnaryOperator
  | neg | not
  deriving Repr, DecidableEq

/-- Rust `asm::BinaryOperator`. -/
inductive BinaryOperator
  | add | sub | mult | and | or | xor
  deriving Repr, DecidableEq

/-- Rust `asm::ConditionCode`. -/
inductive ConditionCode
  | e | ne | g | ge | l | le
  deriving Repr, DecidableEq

/-- Rust `asm::Instruction` (labels and function names flattened to
`String`; `AllocateStack`/`DeallocateStack` carry `u64`, modelled as
`Nat`). -/
inductive Instruction
  | mov (src dst : Operand)
  | unary (op : UnaryOperator) (dst : Operand)
  | binary (op : BinaryOperator) (src dst : Operand)
  | cmp (src dst : Operand)
  | idiv (operand : Operand)
  | cdq
  | sal (operand : Operand)
  | sar (operand : Operand)
  | jmp (target : String)
  | jmpCC (cc : ConditionCode) (target : String)
  | setCC (cc : ConditionCode) (dst : Operand)
  | label (l : String)
  | allocateStack (n : Nat)
  | deallocateStack (n : Nat)
  | push (operand : Operand)
  | call (function : String)
  | ret
  deriving Repr, DecidableEq

/-- Rust `asm::FunctionDefinition` with the spec-§3 `global` flag. -/
structure FunctionDefinition where
  identifier : String
  global : Bool
  instructions : List Instruction
  deriving Repr, DecidableEq

/-- Modelled from the spec (§3): `asm::StaticVariable`. -/
structure StaticVariable where
  identifier : String
  global : Bool
  initial : Int
  deriving Repr, DecidableEq

/-- Modelled from the spec (§3): `asm::TopLevelItem`. -/
inductive TopLevelItem
  | functionDefinition (fd : FunctionDefinition)
  | staticVariable (sv : StaticVariable)
  deriving Repr, DecidableEq

/-- Rust `asm::Program` as a list of top-level items (spec §3). -/
structure Program where
  items : List TopLevelItem
  deriving Repr, DecidableEq

end Asm

/-! ## Codegen (`src/compiler/codegen.rs`)

Instruction selection from TAC, pseudo-register replacement, and the
machine-constraint fix-up pass. -/

namespace Codegen

/-- Rust `get_register_for_argument` (`codegen.rs` lines 34-44). -/
def getRegisterForArgument : Nat → Option Asm.Reg
  | 0 => some .di
  | 1 => some .si
  | 2 => some .dx
  | 3 => some .cx
  | 4 => some .r8
  | 5 => some .r9
  | _ => none

/-- Rust `handle_variable` (`codegen.rs` lines 291-293). -/
def handleVariable (identifier : String) : Asm.Operand :=
  .pseudo identifier

/-- Rust `handle_value` (`codegen.rs` lines 284-289). -/
def handleValue : Tacky.Value → Asm.Operand
  | .constant value => .imm value
  | .var v => handleVariable v

/-- Rust `handle_unary_operator` (`codegen.rs` lines 295-301);
`Not` is `unreachable!()` (panic). -/
def handleUnaryOperator : Tacky.UnaryOperator → RRes Asm.UnaryOperator
  | .complement => .ok .not
  | .negate => .ok .neg
  | .not => .error .panic

/-- Rust `handle_binary_operator` (`codegen.rs` lines 303-313); the
non-arithmetic/bitwise operators are `unreachable!()` (panic). -/
def handleBinaryOperator : Tacky.BinaryOperator → RRes Asm.BinaryOperator
  | .add => .ok .add
  | .subtract => .ok .sub
  | .multiply => .ok .mult
  | .bitwiseAnd => .ok .and
  | .bitwiseOr => .ok .or
  | .bitwiseXor => .ok .xor
  | _ => .error .panic

/-- Rust `handle_relational_binary_operator` (`codegen.rs` lines 315-325);
non-relational operators are `unreachable!()` (panic). -/
def handleRelationalBinaryOperator : Tacky.BinaryOperator → RRes Asm.ConditionCode
  | .equal => .ok .e
  | .notEqual => .ok .ne
  | .lessThan => .ok .l
  | .lessOrEqual => .ok .le
  | .greaterThan => .ok .g
  | .greaterOrEqual => .ok .ge
  | _ => .error .panic

/-- The register-argument loop of the `FunctionCall` arm (`codegen.rs`
lines 243-249): the `i`-th register argument moves into
`get_register_for_argument(i).unwrap()` (panic on `None`). -/
def regMoves (i : Nat) : List Tacky.Value → RRes (List Asm.Instruction)
  | [] => pure []
  | arg :: rest => do
    let reg ← runwrap (getRegisterForArgument i)
    let tail ← regMoves (i + 1) rest
    pure (.mov (handleValue arg) (.reg reg) :: tail)

/-- The stack-argument push loop of the `FunctionCall` arm
(`codegen.rs` lines 251-262), already fed with the reversed
(right-to-left) stack-argument list: `Imm`/`Reg` operands push
directly, anything else bounces through `AX`. -/
def pushLoop : List Tacky.Value → List Asm.Instruction
  | [] => []
  | arg :: rest =>
    (match handleValue arg with
     | .imm n => [.push (.imm n)]
     | .reg r => [.push (.reg r)]
     | val => [.mov val (.reg .ax), .push (.reg .ax)]) ++ pushLoop rest

/-- The `FunctionCall` arm of `handle_instructions` (`codegen.rs` lines
231-277): split the arguments at `6.min(len)`, emit the pre-alignment
`AllocateStack(8)` when the number of stack arguments is odd, move the
register arguments, push the stack arguments right-to-left, `Call`,
deallocate `8*stack_args + padding` when nonzero, and fetch the result
from `AX`. -/
def handleCall (f : String) (args : List Tacky.Value) (dst : String) :
    RRes (List Asm.Instruction) := do
  let registerArgs := args.take (min 6 args.length)
  let stackArgs := args.drop (min 6 args.length)
  let stackPadding : Nat := if stackArgs.length % 2 == 0 then 0 else 8
  let padIns : List Asm.Instruction :=
    if stackPadding ≠ 0 then [.allocateStack stackPadding] else []
  let moves ← regMoves 0 registerArgs
  let pushes := pushLoop stackArgs.reverse
  let bytesToDeallocate := 8 * stackArgs.length + stackPadding
  let deallocIns : List Asm.Instruction :=
    if bytesToDeallocate ≠ 0 then [.deallocateStack bytesToDeallocate] else []
  pure (padIns ++ moves ++ pushes ++ [.call f] ++ deallocIns ++
    [.mov (.reg .ax) (handleVariable dst)])

/-- One iteration of `handle_instructions` (`codegen.rs` lines 78-282),
appending the selected machine instructions for one TAC instruction. -/
def handleInstruction (ins : List Asm.Instruction) :
    Tacky.Instruction → RRes (List Asm.Instruction)
  | .ret value =>
    pure (ins ++ [.mov (handleValue value) (.reg .ax), .ret])
  | .unary op src dst =>
    match op with
    | .complement | .negate => do
      let aop ← handleUnaryOperator op
      let dstAsm := handleVariable dst
      pure (ins ++ [.mov (handleValue src) dstAsm, .unary aop dstAsm])
    | .not =>
      let dstAsm := handleVariable dst
      pure (ins ++ [.cmp (.imm 0) (handleValue src), .mov (.imm 0) dstAsm,
        .setCC .e dstAsm])
  | .binary op lhs rhs dst =>
    match op with
    | .add | .subtract | .multiply | .bitwiseAnd | .bitwiseOr | .bitwiseXor => do
      let aop ← handleBinaryOperator op
      let dstAsm := handleVariable dst
      pure (ins ++ [.mov (handleValue lhs) dstAsm, .binary aop (handleValue rhs) dstAsm])
    | .divide =>
      pure (ins ++ [.mov (handleValue lhs) (.reg .ax), .cdq, .idiv (handleValue rhs),
        .mov (.reg .ax) (handleVariable dst)])
    | .remainder =>
      pure (ins ++ [.mov (handleValue lhs) (.reg .ax), .cdq, .idiv (handleValue rhs),
        .mov (.reg .dx) (handleVariable dst)])
    | .shiftLeft | .shiftRight =>
      let dstAsm := handleVariable dst
      pure (ins ++ [.mov (handleValue lhs) dstAsm, .mov (handleValue rhs) (.reg .cx),
        match op with
        | .shiftLeft => .sal dstAsm
        | _ => .sar dstAsm])
    | _ => do
      let cc ← handleRelationalBinaryOperator op
      let dstAsm := handleVariable dst
      pure (ins ++ [.cmp (handleValue rhs) (handleValue lhs), .mov (.imm 0) dstAsm,
        .setCC cc dstAsm])
  | .copy src dst =>
    pure (ins ++ [.mov (handleValue src) (handleVariable dst)])
  | .jump target => pure (ins ++ [.jmp target])
  | .jumpIfZero condition target =>
    pure (ins ++ [.cmp (.imm 0) (handleValue condition), .jmpCC .e target])
  | .jumpIfNotZero condition target =>
    pure (ins ++ [.cmp (.imm 0) (handleValue condition), .jmpCC .ne target])
  | .label l => pure (ins ++ [.label l])
  | .functionCall f args dst => do
    let callIns ← handleCall f args dst
    pure (ins ++ callIns)

/-- Rust `handle_instructions` (`codegen.rs` lines 78-282). -/
def handleInstructions (ins : List Asm.Instruction) :
    List Tacky.Instruction → RRes (List Asm.Instruction)
  | [] => pure ins
  | i :: rest => do
    let ins1 ← handleInstruction ins i
    handleInstructions ins1 rest

/-- Rust `Some(Symbol { attrs: SymbolAttributes::Static { .. }, .. })`, the
pattern of `replace_pseudo_registers_in_operand`. -/
def isStaticSymbol : Option Symbol → Bool
  | some sym =>
    match sym.attrs with
    | .static _ _ => true
    | _ => false
  | none => false

/-- Rust `replace_pseudo_registers_in_operand` (`codegen.rs` lines 371-392).
The slot map (`HashMap<String, i64>`) is an entry list in insertion
order; `map.len()` drives the next `-4*(n+1)` offset. -/
def replacePseudoInOperand (map : List (String × Int)) (symbols : SymbolTable) :
    Asm.Operand → Asm.Operand × List (String × Int)
  | .pseudo name =>
    (match (map.find? fun e => e.1 = name).map (·.2) with
     | some offset => (.stack offset, map)
     | none =>
       if isStaticSymbol (symbols.get name) then (.data name, map)
       else
         let offset : Int := -4 * ((map.length : Int) + 1)
         (.stack offset, map ++ [(name, offset)]))
  | op => (op, map)

/-- The per-instruction dispatch of `replace_pseudo_registers`
(`codegen.rs` lines 339-365): two-operand instructions replace `src`
then `dst`, one-operand instructions replace their operand, the rest
are untouched. -/
def replacePseudoInInstruction (map : List (String × Int)) (symbols : SymbolTable) :
    Asm.Instruction → Asm.Instruction × List (String × Int)
  | .mov src dst =>
    let (src', map1) := replacePseudoInOperand map symbols src
    let (dst', map2) := replacePseudoInOperand map1 symbols dst
    (.mov src' dst', map2)
  | .binary op src dst =>
    let (src', map1) := replacePseudoInOperand map symbols src
    let (dst', map2) := replacePseudoInOperand map1 symbols dst
    (.binary op src' dst', map2)
  | .cmp src dst =>
    let (src', map1) := replacePseudoInOperand map symbols src
    let (dst', map2) := replacePseudoInOperand map1 symbols dst
    (.cmp src' dst', map2)
  | .unary op dst =>
    let (dst', map1) := replacePseudoInOperand map symbols dst
    (.unary op dst', map1)
  | .idiv operand =>
    let (op', map1) := replacePseudoInOperand map symbols operand
    (.idiv op', map1)
  | .sal operand =>
    let (op', map1) := replacePseudoInOperand map symbols operand
    (.sal op', map1)
  | .sar operand =>
    let (op', map1) := replacePseudoInOperand map symbols operand
    (.sar op', map1)
  | .setCC cc dst =>
    let (dst', map1) := replacePseudoInOperand map symbols dst
    (.setCC cc dst', map1)
  | .push operand =>
    let (op', map1) := replacePseudoInOperand map symbols operand
    (.push op', map1)
  | i => (i, map)

/-- The instruction loop of `replace_pseudo_registers`. -/
def replacePseudoLoop (map : List (String × Int)) (symbols : SymbolTable) :
    List Asm.Instruction → List Asm.Instruction × List (String × Int)
  | [] => ([], map)
  | i :: rest =>
    let (i', map1) := replacePseudoInInstruction map symbols i
    let (rest', map2) := replacePseudoLoop map1 symbols rest
    (i' :: rest', map2)

/-- Rust `replace_pseudo_registers` (`codegen.rs` lines 333-369): rewrite
all operands, then report `4 * map.len()` as the used stack size. -/
def replacePseudoRegisters (instructions : List Asm.Instruction)
    (symbols : SymbolTable) : List Asm.Instruction × Nat :=
  let (instructions', map) := replacePseudoLoop [] symbols instructions
  (instructions', 4 * map.length)

/-- The `Stack(_) | Data(_)` memory-operand pattern of the fix-up
arms. -/
def isMemOperand : Asm.Operand → Bool
  | .stack _ => true
  | .data _ => true
  | _ => false

/-- Rust `u64::next_multiple_of(16)`. -/
def nextMultipleOf16 (n : Nat) : Nat :=
  ((n + 15) / 16) * 16

/-- The per-instruction rewrite of `fix_up_instructions` (`codegen.rs`
lines 401-491): `Mov mem,mem` and `Cmp mem,mem` split via `R10`;
`Idiv imm` bounces through `R10`; two-operand `Add/Sub/And/Or/Xor` with
both operands in memory split via `R10`; `Mult` with a `Stack`
destination (and only a `Stack` destination — the source pattern is
`dst @ asm::Operand::Stack(_)`, it does not match `Data`) bounces
through `R11`; `Cmp` with an immediate destination moves the
destination into `R11`. -/
def fixUp (ins : Asm.Instruction) : List Asm.Instruction :=
  match ins with
  | .mov src dst =>
    if isMemOperand src && isMemOperand dst then
      [.mov src (.reg .r10), .mov (.reg .r10) dst]
    else [.mov src dst]
  | .idiv value =>
    (match value with
     | .imm n => [.mov (.imm n) (.reg .r10), .idiv (.reg .r10)]
     | v => [.idiv v])
  | .binary op src dst =>
    (match op with
     | .add | .sub | .and | .or | .xor =>
       if isMemOperand src && isMemOperand dst then
         [.mov src (.reg .r10), .binary op (.reg .r10) dst]
       else [.binary op src dst]
     | .mult =>
       match dst with
       | .stack offset =>
         [.mov (.stack offset) (.reg .r11), .binary .mult src (.reg .r11),
          .mov (.reg .r11) (.stack offset)]
       | d => [.binary .mult src d])
  | .cmp src dst =>
    if isMemOperand src && isMemOperand dst then
      [.mov src (.reg .r10), .cmp (.reg .r10) dst]
    else
      match dst with
      | .imm n => [.mov (.imm n) (.reg .r11), .cmp src (.reg .r11)]
      | d => [.cmp src d]
  | i => [i]

/-- Rust `fix_up_instructions` (`codegen.rs` lines 394-494): prepend
`AllocateStack(stack_size.next_multiple_of(16))`, then rewrite each
instruction. -/
def fixUpInstructions (instructions : List Asm.Instruction) (stackSize : Nat) :
    List Asm.Instruction :=
  .allocateStack (nextMultipleOf16 stackSize) :: instructions.flatMap fixUp

/-- The parameter-copy loop of `handle_function_definition`
(`codegen.rs` lines 52-62): parameter `i` comes from its ABI home —
a register for the first six, `Stack(16 + (i-6)*8)` beyond. -/
def paramMoves (i : Nat) : List String → List Asm.Instruction
  | [] => []
  | p :: rest =>
    let src : Asm.Operand :=
      match getRegisterForArgument i with
      | some reg => .reg reg
      | none => .stack (16 + ((i : Int) - 6) * 8)
    .mov src (handleVariable p) :: paramMoves (i + 1) rest

/-- Rust `handle_function_definition` (`codegen.rs` lines 46-76). -/
def handleFunctionDefinition (fd : Tacky.FunctionDefinition)
    (symbols : SymbolTable) : RRes Asm.FunctionDefinition := do
  let ins0 := paramMoves 0 fd.parameters
  let ins1 ← handleInstructions ins0 fd.instructions
  let (ins2, stackSize) := replacePseudoRegisters ins1 symbols
  pure ⟨fd.identifier, fd.global, fixUpInstructions ins2 stackSize⟩

/-- Rust `handle_program` (`codegen.rs` lines 11-32). -/
def handleProgram (program : Tacky.Program) (symbols : SymbolTable) :
    RRes Asm.Program := do
  let rec go : List Tacky.TopLevelItem → RRes (List Asm.TopLevelItem)
    | [] => pure []
    | .functionDefinition fd :: rest => do
      let fd' ← handleFunctionDefinition fd symbols
      let rest' ← go rest
      pure (.functionDefinition fd' :: rest')
    | .staticVariable sv :: rest => do
      let rest' ← go rest
      pure (.staticVariable ⟨sv.identifier, sv.global, sv.initial⟩ :: rest')
  (go program.items).map Asm.Program.mk

/-- Rust `generate` (`codegen.rs` lines 7-9). -/
def generate (program : Tacky.Program) (symbols : SymbolTable) : RRes Asm.Program :=
  handleProgram program symbols

end Codegen

/-! ### Claim theorems about codegen -/

/-- The forbidden x86 operand forms listed in claim C6: `Mov`/`Cmp`
with both operands in memory, `Idiv` of an immediate, two-operand
`Add/Sub/And/Or/Xor` with both operands in memory, `Mult` with a memory
destination, and `Cmp` with an immediate destination. -/
def forbiddenOperandForm : Asm.Instruction → Bool
  | .mov src dst => Codegen.isMemOperand src && Codegen.isMemOperand dst
  | .cmp src dst =>
    (Codegen.isMemOperand src && Codegen.isMemOperand dst) ||
      (match dst with
       | .imm _ => true
       | _ => false)
  | .idiv operand =>
    (match operand with
     | .imm _ => true
     | _ => false)
  | .binary op src dst =>
    (match op with
     | .add | .sub | .and | .or | .xor =>
       Codegen.isMemOperand src && Codegen.isMemOperand dst
     | .mult => Codegen.isMemOperand dst)
  | _ => false

/-- The TAC of the compound assignment `x *= 3` where `x` is a
file-scope `static int x = 1;` (so `x` lowers to a `Data` operand). -/
def c6Function : Tacky.FunctionDefinition :=
  ⟨"f", true, [], [.binary .multiply (.var "x") (.constant 3) "x"]⟩

/-- The symbol table entry making `x` static. -/
def c6Symbols : SymbolTable :=
  [("x", ⟨.int, .static (.initial 1) false⟩)]

/-- C6 evaluation: the fix-up pass rewrites `Mult` destinations only
when they are `Stack` operands (the pattern is `dst @ Operand::Stack(_)`),
so an `imul` whose destination is a `Data` (static) memory operand
survives the pass — a forbidden operand form remains in the function's
instruction list. -/
theorem C6_mult_with_data_destination_survives :
    Codegen.handleFunctionDefinition c6Function c6Symbols =
      .ok ⟨"f", true,
        [ .allocateStack 0
        , .mov (.data "x") (.reg .r10)
        , .mov (.reg .r10) (.data "x")
        , .binary .mult (.imm 3) (.data "x") ]⟩ ∧
    ([ Asm.Instruction.allocateStack 0
     , .mov (.data "x") (.reg .r10)
     , .mov (.reg .r10) (.data "x")
     , .binary .mult (.imm 3) (.data "x") ].any forbiddenOperandForm) = true :=
  ⟨rfl, rfl⟩

/-- The argument registers named by claim C8, in order. -/
def argRegisters : List Asm.Reg := [.di, .si, .dx, .cx, .r8, .r9]

/-- The number of arguments beyond the first six (`s` in claim C8). -/
def stackArgsCount (args : List Tacky.Value) : Nat := (args.drop 6).length

/-- The pre-alignment padding of claim C8: 8 if `s` is odd, 0 otherwise. -/
def callPadding (args : List Tacky.Value) : Nat :=
  if stackArgsCount args % 2 = 1 then 8 else 0

/-- The call sequence as claim C8 states it: optional pre-alignment
allocation, the first six arguments moved to `DI, SI, DX, CX, R8, R9`
in order, the remaining arguments pushed right-to-left, the `Call`,
deallocation of `s*8 + padding` bytes (omitted when that is zero), and
the result fetched from `AX`. -/
def claimCallSequence (f : String) (args : List Tacky.Value) (dst : String) :
    List Asm.Instruction :=
  (if callPadding args ≠ 0 then [Asm.Instruction.allocateStack (callPadding args)]
   else []) ++
  ((args.take 6).zip argRegisters).map
    (fun p => .mov (Codegen.handleValue p.1) (.reg p.2)) ++
  Codegen.pushLoop (args.drop 6).reverse ++
  [.call f] ++
  (if 8 * stackArgsCount args + callPadding args ≠ 0 then
    [Asm.Instruction.deallocateStack (8 * stackArgsCount args + callPadding args)]
   else []) ++
  [.mov (.reg .ax) (.pseudo dst)]

theorem regMoves_spec (l : List Tacky.Value) : ∀ i, i + l.length ≤ 6 →
    Codegen.regMoves i l =
      .ok ((l.zip (argRegisters.drop i)).map fun p =>
        Asm.Instruction.mov (Codegen.handleValue p.1) (.reg p.2)) := by
  induction l with
  | nil => intro i _; rfl
  | cons a rest ih =>
    intro i h
    have hi : i < 6 := by
      simp only [List.length_cons] at h
      omega
    have hrest : (i + 1) + rest.length ≤ 6 := by
      simp only [List.length_cons] at h
      omega
    have hreg : ∃ r, Codegen.getRegisterForArgument i = some r ∧
        argRegisters.drop i = r :: argRegisters.drop (i + 1) := by
      interval_cases i <;> exact ⟨_, rfl, rfl⟩
    obtain ⟨r, hr, hd⟩ := hreg
    simp only [Codegen.regMoves, hr, runwrap, ih (i + 1) hrest, hd]
    rfl

theorem take_min_six (args : List Tacky.Value) :
    args.take (min 6 args.length) = args.take 6 := by
  rcases le_or_lt args.length 6 with h | h
  · rw [min_eq_right h, List.take_length, List.take_of_length_le h]
  · rw [min_eq_left (le_of_lt h)]

theorem drop_min_six (args : List Tacky.Value) :
    args.drop (min 6 args.length) = args.drop 6 := by
  rcases le_or_lt args.length 6 with h | h
  · rw [min_eq_right h, List.drop_length, List.drop_eq_nil_of_le h]
  · rw [min_eq_left (le_of_lt h)]

/-- C8: for every lowered `FunctionCall`, the emitted machine sequence
is exactly the claimed calling-convention sequence — padding 8 iff the
stack-argument count `s` is odd, first six arguments in
`DI, SI, DX, CX, R8, R9`, remaining arguments pushed right-to-left, and
`s*8 + padding` bytes deallocated after the `Call` — and
`s*8 + padding ≡ 0 (mod 16)`. -/
theorem C8_call_sequence_and_alignment (f : String) (args : List Tacky.Value)
    (dst : String) :
    Codegen.handleCall f args dst = .ok (claimCallSequence f args dst) ∧
    (8 * stackArgsCount args + callPadding args) % 16 = 0 := by
  constructor
  · have hmoves := regMoves_spec (args.take 6) 0
      (by simp only [Nat.zero_add, List.length_take]; omega)
    simp only [List.drop_zero] at hmoves
    have hpad : (if ((args.drop 6).length % 2 == 0) = true then (0 : Nat) else 8)
        = callPadding args := by
      unfold callPadding stackArgsCount
      rcases Nat.mod_two_eq_zero_or_one (args.drop 6).length with h | h <;>
        rw [h] <;> norm_num
    simp only [Codegen.handleCall, take_min_six, drop_min_six, hmoves,
      claimCallSequence, stackArgsCount, Codegen.handleVariable, hpad, pure]
    rfl
  · unfold callPadding stackArgsCount
    rw [List.length_drop]
    rcases Nat.mod_two_eq_zero_or_one (args.length - 6) with h | h <;>
      rw [h] <;> norm_num <;> omega

/-! ## Emitter (`src/compiler/emitter.rs`)

Stateless conversion of the machine IR to GAS assembler text (macOS
conventions: underscore-prefixed symbols, `L`-prefixed labels).  A
`Pseudo` operand reaching the emitter is `unreachable!()` (panic), so
the operand- and instruction-level emitters return `RRes String`. -/

namespace Emitter

/-- Rust `prefix_identifier` (`emitter.rs` lines 28-30). -/
def prefixIdentifier (identifier : String) : String :=
  "_" ++ identifier

/-- Rust `build_global_directive` (`emitter.rs` lines 32-38). -/
def buildGlobalDirective (identifier : String) (global : Bool) : String :=
  if global then "\t.globl\t" ++ identifier ++ "\n" else ""

/-- Rust `RegSize` (`emitter.rs` lines 171-176). -/
inductive RegSize
  | oneByte | fourBytes | eightBytes

/-- The register table of `emit_operand` (`emitter.rs` lines 180-215). -/
def emitReg (size : RegSize) (reg : Asm.Reg) : String :=
  match size with
  | .oneByte =>
    match reg with
    | .ax => "%al"
    | .cx => "%cl"
    | .dx => "%dl"
    | .di => "%dil"
    | .si => "%sil"
    | .r8 => "%r8b"
    | .r9 => "%r9b"
    | .r10 => "%r10b"
    | .r11 => "%r11b"
  | .fourBytes =>
    match reg with
    | .ax => "%eax"
    | .cx => "%ecx"
    | .dx => "%edx"
    | .di => "%edi"
    | .si => "%esi"
    | .r8 => "%r8d"
    | .r9 => "%r9d"
    | .r10 => "%r10d"
    | .r11 => "%r11d"
  | .eightBytes =>
    match reg with
    | .ax => "%rax"
    | .cx => "%rcx"
    | .dx => "%rdx"
    | .di => "%rdi"
    | .si => "%rsi"
    | .r8 => "%r8"
    | .r9 => "%r9"
    | .r10 => "%r10"
    | .r11 => "%r11"

/-- Rust `emit_operand` (`emitter.rs` lines 178-221); `Pseudo` is
`unreachable!()` (panic). -/
def emitOperand (operand : Asm.Operand) (size : RegSize) : RRes String :=
  match operand with
  | .reg reg => .ok (emitReg size reg)
  | .stack offset => .ok (toString offset ++ "(%rbp)")
  | .imm value => .ok ("$" ++ toString value)
  | .data identifier => .ok (prefixIdentifier identifier ++ "(%rip)")
  | .pseudo _ => .error .panic

/-- Rust `emit_unary_operator` (`emitter.rs` lines 153-158). -/
def emitUnaryOperator : Asm.UnaryOperator → String
  | .neg => "negl"
  | .not => "notl"

/-- Rust `emit_binary_operator` (`emitter.rs` lines 160-168); note the
source pads `Or` with a trailing tab (`"orl\t"`). -/
def emitBinaryOperator : Asm.BinaryOperator → String
  | .add => "addl"
  | .sub => "subl"
  | .mult => "imull"
  | .and => "andl"
  | .or => "orl\t"
  | .xor => "xorl"

/-- Rust `emit_condition_code` (`emitter.rs` lines 227-236). -/
def emitConditionCode : Asm.ConditionCode → String
  | .e => "e"
  | .ne => "ne"
  | .l => "l"
  | .le => "le"
  | .g => "g"
  | .ge => "ge"

/-- Rust `emit_label` (`emitter.rs` lines 223-225). -/
def emitLabel (identifier : String) : String :=
  "L" ++ identifier

/-- Rust `emit_instruction` (`emitter.rs` lines 85-151). -/
def emitInstruction : Asm.Instruction → RRes String
  | .mov src dst => do
    let s ← emitOperand src .fourBytes
    let d ← emitOperand dst .fourBytes
    pure ("\tmovl\t" ++ s ++ ", " ++ d)
  | .unary op dst => do
    let d ← emitOperand dst .fourBytes
    pure ("\t" ++ emitUnaryOperator op ++ "\t" ++ d)
  | .binary op src dst => do
    let s ← emitOperand src .fourBytes
    let d ← emitOperand dst .fourBytes
    pure ("\t" ++ emitBinaryOperator op ++ "\t" ++ s ++ ", " ++ d)
  | .cmp src dst => do
    let s ← emitOperand src .fourBytes
    let d ← emitOperand dst .fourBytes
    pure ("\tcmpl\t" ++ s ++ ", " ++ d)
  | .idiv operand => do
    let o ← emitOperand operand .fourBytes
    pure ("\tidivl\t" ++ o)
  | .cdq => pure "\tcdq"
  | .sal operand => do
    let o ← emitOperand operand .fourBytes
    pure ("\tsall\t%cl, " ++ o)
  | .sar operand => do
    let o ← emitOperand operand .fourBytes
    pure ("\tsarl\t%cl, " ++ o)
  | .jmp target => pure ("\tjmp\t\t" ++ emitLabel target)
  | .jmpCC cc target =>
    pure ("\tj" ++ emitConditionCode cc ++ "\t" ++ emitLabel target)
  | .setCC cc dst => do
    let d ← emitOperand dst .oneByte
    pure ("\tset" ++ emitConditionCode cc ++ "\t" ++ d)
  | .label l => pure (emitLabel l ++ ":")
  | .allocateStack bytes => pure ("\tsubq\t$" ++ toString bytes ++ ", %rsp")
  | .deallocateStack bytes => pure ("\taddq\t$" ++ toString bytes ++ ", %rsp")
  | .push operand => do
    let o ← emitOperand operand .eightBytes
    pure ("\tpushq\t" ++ o)
  | .call function => pure ("\tcall\t" ++ prefixIdentifier function)
  | .ret => pure "\tmovq\t%rbp, %rsp\n\tpopq\t%rbp\n\tret"

/-- The instruction `map`/`join("\n")` of `emit_function_definition`. -/
def emitInstructionList : List Asm.Instruction → RRes (List String)
  | [] => pure []
  | i :: rest => do
    let s ← emitInstruction i
    let ss ← emitInstructionList rest
    pure (s :: ss)

/-- Rust `emit_function_definition` (`emitter.rs` lines 40-60): the `.globl`
directive of a function names the underscore-prefixed identifier. -/
def emitFunctionDefinition (fd : Asm.FunctionDefinition) : RRes String := do
  let prefixed := prefixIdentifier fd.identifier
  let instructionStrs ← emitInstructionList fd.instructions
  let instructions := String.intercalate "\n" instructionStrs
  let globalDirective := buildGlobalDirective prefixed fd.global
  pure (globalDirective ++ "\t.text\n" ++ prefixed ++
    ":\n\tpushq\t%rbp\n\tmovq\t%rsp, %rbp\n" ++ instructions ++ "\n")

/-- Rust `emit_static_variable` (`emitter.rs` lines 62-83): the `.globl`
directive is built from `sv.variable.identifier` — the *unprefixed*
name — while the defining label uses the prefixed one. -/
def emitStaticVariable (sv : Asm.StaticVariable) : String :=
  let identifier := prefixIdentifier sv.identifier
  let globalDirective := buildGlobalDirective sv.identifier sv.global
  let alignmentDirective := "\t.balign 4\n"
  if sv.initial == 0 then
    globalDirective ++ "\t.bss\n" ++ alignmentDirective ++ identifier ++
      ":\n\t.zero 4\n"
  else
    globalDirective ++ "\t.data\n" ++ alignmentDirective ++ identifier ++
      ":\n\t.long " ++ toString sv.initial ++ "\n"

/-- Rust `emit_top_level_item` (`emitter.rs` lines 21-26). -/
def emitTopLevelItem : Asm.TopLevelItem → RRes String
  | .functionDefinition fd => emitFunctionDefinition fd
  | .staticVariable sv => pure (emitStaticVariable sv)

/-- The item `map`/`join("\n")` of `emit_program`. -/
def emitItemList : List Asm.TopLevelItem → RRes (List String)
  | [] => pure []
  | i :: rest => do
    let s ← emitTopLevelItem i
    let ss ← emitItemList rest
    pure (s :: ss)

/-- Rust `emit_program` (`emitter.rs` lines 12-19). -/
def emitProgram (program : Asm.Program) : RRes String := do
  let items ← emitItemList program.items
  pure (String.intercalate "\n" items)

/-- Rust `emit` (`emitter.rs` lines 8-10). -/
def emit (program : Asm.Program) : RRes String :=
  emitProgram program

end Emitter

/-! ### Claim theorems about the emitter and about output determinism -/

/-- C2 evaluation: for a global static variable `x` with initial 1, the
emitted `.globl` directive names the *unprefixed* symbol `x` while the
defining label is `_x:` — unlike a function definition, whose `.globl`
names the prefixed `_f`.  So not every symbol name in the emitted text
is underscore-prefixed, and the static `.globl` does not name the same
identifier as the defining label. -/
theorem C2_static_globl_uses_unprefixed_name :
    Emitter.emitStaticVariable ⟨"x", true, 1⟩ =
      "\t.globl\tx\n\t.data\n\t.balign 4\n_x:\n\t.long 1\n" ∧
    Emitter.emitFunctionDefinition ⟨"f", true, []⟩ =
      .ok "\t.globl\t_f\n\t.text\n_f:\n\tpushq\t%rbp\n\tmovq\t%rsp, %rbp\n\n" :=
  ⟨rfl, rfl⟩

/-- The compiler core from TAC generation to assembler text, as
`compile` in `mod.rs` chains the passes after semantic analysis. -/
def coreFromSymbols (program : TG.Program) (symbols : SymbolTable) : RRes String := do
  let tackyResult ← TackyGen.generate program symbols
  let asmResult ← Codegen.generate tackyResult symbols
  Emitter.emit asmResult

/-- The name of a TAC top-level item. -/
def tackyItemName : Tacky.TopLevelItem → String
  | .functionDefinition fd => fd.identifier
  | .staticVariable sv => sv.identifier

/-- A symbol-table entry that `handle_program` emits as a static
variable: `Static` attributes with a `Tentative` or `Initial` value. -/
def isEmittedStatic (sym : Symbol) : Bool :=
  match sym.attrs with
  | .static .tentative _ => true
  | .static (.initial _) _ => true
  | _ => false

/-- C7 (amended): the TAC generator emits the static variables in
symbol-table iteration order — their names are exactly the names of the
emitted-static entries in that order, with no sorting — so the output
is deterministic only relative to a fixed iteration order. -/
theorem C7_statics_follow_iteration_order (symbols : SymbolTable)
    (st : TackyGen.St) :
    TackyGen.handleProgram st ⟨[]⟩ symbols =
      .ok (⟨TackyGen.staticItems symbols⟩, st) ∧
    (TackyGen.staticItems symbols).map tackyItemName =
      (symbols.filter fun e => isEmittedStatic e.2).map (·.1) := by
  refine ⟨rfl, ?_⟩
  induction symbols with
  | nil => rfl
  | cons e rest ih =>
    obtain ⟨identifier, sym⟩ := e
    match hattrs : sym.attrs with
    | .function d g =>
      simp [TackyGen.staticItems, List.filter, isEmittedStatic, hattrs, ih]
    | .localAttr =>
      simp [TackyGen.staticItems, List.filter, isEmittedStatic, hattrs, ih]
    | .static initial g =>
      match initial with
      | .tentative =>
        simp [TackyGen.staticItems, List.filter, isEmittedStatic, hattrs,
          tackyItemName, ih]
      | .initial i =>
        simp [TackyGen.staticItems, List.filter, isEmittedStatic, hattrs,
          tackyItemName, ih]
      | .none =>
        simp [TackyGen.staticItems, List.filter, isEmittedStatic, hattrs, ih]

/-- Two iteration orders of the same symbol-table contents: a tentative
global `a` and an initialized global `b`. -/
def c7EntriesAB : SymbolTable :=
  [("a", ⟨.int, .static .tentative true⟩), ("b", ⟨.int, .static (.initial 5) true⟩)]

/-- The same entries in the opposite iteration order. -/
def c7EntriesBA : SymbolTable :=
  [("b", ⟨.int, .static (.initial 5) true⟩), ("a", ⟨.int, .static .tentative true⟩)]

/-- C7 counterexample: on the same program (no functions) and the same
symbol-table *contents*, two hash-map iteration orders produce
different assembler text — the statics are emitted in iteration order,
not sorted by identifier, so the output is not independent of hash-map
iteration order. -/
theorem C7_output_not_order_independent :
    coreFromSymbols ⟨[]⟩ c7EntriesAB =
      .ok "\t.globl\ta\n\t.bss\n\t.balign 4\n_a:\n\t.zero 4\n\n\t.globl\tb\n\t.data\n\t.balign 4\n_b:\n\t.long 5\n" ∧
    coreFromSymbols ⟨[]⟩ c7EntriesBA =
      .ok "\t.globl\tb\n\t.data\n\t.balign 4\n_b:\n\t.long 5\n\n\t.globl\ta\n\t.bss\n\t.balign 4\n_a:\n\t.zero 4\n" ∧
    ("\t.globl\ta\n\t.bss\n\t.balign 4\n_a:\n\t.zero 4\n\n\t.globl\tb\n\t.data\n\t.balign 4\n_b:\n\t.long 5\n" : String) ≠
      "\t.globl\tb\n\t.data\n\t.balign 4\n_b:\n\t.long 5\n\n\t.globl\ta\n\t.bss\n\t.balign 4\n_a:\n\t.zero 4\n" :=
  ⟨rfl, rfl, by decide⟩

/-! ## Type checker (`src/compiler/semantic/type_check.rs`)

The type checker operates on the current `ast.rs` (expressions with
`ty: Option<Type>` slots) and populates its own symbol table, whose
static initial values are width-aware (`SymbolStaticInitial`) as used
by `type_check.rs` — the stale `symbols.rs` lacks that type, so it is
modelled from usage and spec §3 ("The static initial value encodes the
width (Int vs Long)").  Everything lives in namespace `TC`. -/

namespace TC

/-- Rust `ast::Expression` of the current `ast.rs` (with `ty` slots). -/
inductive Expression
  | constant (c : Constant) (ty : Option Ty)
  | var (identifier : String) (ty : Option Ty)
  | cast (targetTy : Ty) (expr : Expression) (ty : Option Ty)
  | unary (op : UnaryOperator) (expr : Expression) (ty : Option Ty)
  | binary (op : BinaryOperator) (lhs rhs : Expression) (ty : Option Ty)
  | assignment (op : AssignmentOperator) (lhs rhs : Expression) (ty : Option Ty)
  | conditional (condition thenExpr elseExpr : Expression) (ty : Option Ty)
  | functionCall (identifier : String) (arguments : List Expression) (ty : Option Ty)
  deriving Repr

/-- Rust `Expression::ty` (`ast.rs` lines 156-169). -/
def Expression.ty : Expression → Option Ty
  | .constant _ ty => ty
  | .var _ ty => ty
  | .cast _ _ ty => ty
  | .unary _ _ ty => ty
  | .binary _ _ _ ty => ty
  | .assignment _ _ _ ty => ty
  | .conditional _ _ _ ty => ty
  | .functionCall _ _ ty => ty

/-- Rust `ast::VariableDeclaration` (with `ty`). -/
structure VariableDeclaration where
  identifier : String
  initializer : Option Expression
  ty : Ty
  storageClass : Option StorageClass
  deriving Repr

/-- Rust `ast::ForInitializer`. -/
inductive ForInitializer
  | variableDeclaration (vd : VariableDeclaration)
  | expression (e : Expression)
  deriving Repr

/-- Rust `ast::SwitchCases`. -/
structure SwitchCases where
  cases : List (Expression × String)
  defaultCase : Option String
  deriving Repr

/-- Rust `ast::LoopOrSwitchLabel`. -/
inductive LoopOrSwitchLabel
  | loop (identifier : String)
  | switchLabel (identifier : String)
  deriving Repr

mutual

/-- Rust `ast::Statement` (`Block` inlined as `List BlockItem`). -/
inductive Statement
  | ret (e : Expression)
  | expression (e : Expression)
  | ifStmt (condition : Expression) (thenBranch : Statement)
      (elseBranch : Option Statement)
  | goto (label : String)
  | labeled (label : String) (stmt : Statement)
  | compound (block : List BlockItem)
  | breakStmt (label : Option LoopOrSwitchLabel)
  | continueStmt (label : Option String)
  | whileStmt (condition : Expression) (body : Statement) (label : Option String)
  | doWhile (body : Statement) (condition : Expression) (label : Option String)
  | forStmt (initializer : Option ForInitializer) (condition : Option Expression)
      (post : Option Expression) (body : Statement) (label : Option String)
  | switch (expression : Expression) (body : Statement)
      (cases : Option SwitchCases) (label : Option String)
  | caseStmt (expression : Expression) (body : Statement) (label : Option String)
  | defaultStmt (body : Statement) (label : Option String)
  | null

/-- Rust `ast::BlockItem`. -/
inductive BlockItem
  | statement (s : Statement)
  | declaration (d : Declaration)

/-- Rust `ast::Declaration`. -/
inductive Declaration
  | variableDecl (vd : VariableDeclaration)
  | functionDecl (fd : FunctionDeclaration)

/-- Rust `ast::FunctionDeclaration` (with `ty`). -/
inductive FunctionDeclaration
  | mk (identifier : String) (parameters : List String)
      (body : Option (List BlockItem)) (ty : Ty)
      (storageClass : Option StorageClass)

end

/-- The `identifier` field of a `FunctionDeclaration`. -/
def FunctionDeclaration.identifier : FunctionDeclaration → String
  | .mk identifier _ _ _ _ => identifier

/-- The `parameters` field of a `FunctionDeclaration`. -/
def FunctionDeclaration.parameters : FunctionDeclaration → List String
  | .mk _ parameters _ _ _ => parameters

/-- The `body` field of a `FunctionDeclaration`. -/
def FunctionDeclaration.body : FunctionDeclaration → Option (List BlockItem)
  | .mk _ _ body _ _ => body

/-- The `ty` field of a `FunctionDeclaration`. -/
def FunctionDeclaration.ty : FunctionDeclaration → Ty
  | .mk _ _ _ ty _ => ty

/-- The `storage_class` field of a `FunctionDeclaration`. -/
def FunctionDeclaration.storageClass : FunctionDeclaration → Option StorageClass
  | .mk _ _ _ _ storageClass => storageClass

/-- Rust `ast::Program`. -/
structure Program where
  declarations : List Declaration

/-- Rust `symbols::SymbolStaticInitial` as used by `type_check.rs`:
width-aware static initial values (modelled; see section comment). -/
inductive SymbolStaticInitial
  | int (n : Int)
  | long (n : Int)
  deriving Repr

/-- Rust `symbols::SymbolInitialValue` of the type-checker revision, with a
width-aware `Initial`. -/
inductive SymbolInitialValue
  | tentative
  | initial (v : SymbolStaticInitial)
  | none
  deriving Repr

/-- Rust `symbols::SymbolAttributes` of the type-checker revision. -/
inductive SymbolAttributes
  | function (defined : Bool) (global : Bool)
  | static (initial : SymbolInitialValue) (global : Bool)
  | localAttr
  deriving Repr

/-- Rust `symbols::Symbol` of the type-checker revision. -/
structure Symbol where
  ty : Ty
  attrs : SymbolAttributes
  deriving Repr

/-- The type checker's `HashMap<String, Symbol>`, as an entry list. -/
abbrev SymbolTable := List (String × Symbol)

/-- Rust `SymbolTable::get`. -/
def symGet (st : SymbolTable) (identifier : String) : Option Symbol :=
  (st.find? fun e => e.1 = identifier).map (·.2)

/-- Rust `SymbolTable::insert` (overwrite in place or append). -/
def symInsert (st : SymbolTable) (identifier : String) (entry : Symbol) :
    SymbolTable :=
  match st with
  | [] => [(identifier, entry)]
  | e :: rest =>
    if e.1 = identifier then (identifier, entry) :: rest
    else e :: symInsert rest identifier entry

/-- The Rust `as i32` cast: two's-complement truncation to 32 bits. -/
def wrapToI32 (n : Int) : Int :=
  (n + 2147483648) % 4294967296 - 2147483648

/-- Rust `constant_to_static_initial` (`type_check.rs` lines 49-61);
a `Function` type is `unreachable!()` (panic). -/
def constantToStaticInitial (c : Constant) (ty : Ty) : RRes SymbolStaticInitial :=
  match ty with
  | .int => .ok (.int (match c with
      | .constantInt n => n
      | .constantLong n => wrapToI32 n))
  | .long => .ok (.long (match c with
      | .constantInt n => n
      | .constantLong n => n))
  | .function _ _ => .error .panic

/-- Rust `get_common_type` (`type_check.rs` lines 29-35). -/
def getCommonType (ty1 ty2 : Ty) : Ty :=
  if Ty.beq ty1 ty2 then ty1 else .long

/-- Rust `convert_to_type` (`type_check.rs` lines 37-47): identity when the
expression already has the target type (`expr.ty().unwrap()` panics on
an untyped expression), otherwise wrap in a typed `Cast`. -/
def convertToType (expr : Expression) (ty : Ty) : RRes Expression := do
  let ety ← runwrap expr.ty
  if Ty.beq ety ty then pure expr
  else pure (.cast ty expr (some ty))

mutual

/-- Rust `handle_expression` (`type_check.rs` lines 502-682).  It only reads
the symbol table, so `symbols` is a fixed parameter. -/
def handleExpression (symbols : SymbolTable) : Expression → RRes Expression
  | .functionCall identifier arguments _ => do
    let entry ← runwrap (symGet symbols identifier)
    match entry.ty with
    | .function returnType parameters =>
      if parameters.length ≠ arguments.length then
        .error (.msg ("Function " ++ identifier ++ " expects " ++
          toString parameters.length ++ " arguments, got " ++
          toString arguments.length))
      else do
        let convertedArguments ← handleArguments symbols arguments parameters
        pure (.functionCall identifier convertedArguments (some returnType))
    | _ => .error (.msg (identifier ++ " is not a function"))
  | .var identifier _ => do
    let entry ← runwrap (symGet symbols identifier)
    match entry.ty with
    | .function _ _ => .error (.msg (identifier ++ " is not a variable"))
    | _ => pure (.var identifier (some entry.ty))
  | .unary op expr _ => do
    let typed ← handleExpression symbols expr
    let ty ← runwrap typed.ty
    pure (.unary op typed (some (match op with
      | .not => Ty.int
      | _ => ty)))
  | .binary op lhs rhs _ => do
    let typedLhs ← handleExpression symbols lhs
    let typedRhs ← handleExpression symbols rhs
    match op with
    | .logicalAnd | .logicalOr =>
      pure (.binary op typedLhs typedRhs (some .int))
    | _ => do
      let tyLhs ← runwrap typedLhs.ty
      let tyRhs ← runwrap typedRhs.ty
      let common := getCommonType tyLhs tyRhs
      let convertedLhs ← convertToType typedLhs common
      let convertedRhs ← convertToType typedRhs common
      let ty ←
        (match op with
        | .add | .subtract | .multiply | .divide | .remainder
        | .bitwiseAnd | .bitwiseOr | .bitwiseXor
        | .shiftLeft | .shiftRight => .ok common
        | .equal | .notEqual | .lessThan | .lessOrEqual
        | .greaterThan | .greaterOrEqual => .ok Ty.int
        | .logicalAnd | .logicalOr => .error RFail.panic)
      pure (.binary op convertedLhs convertedRhs (some ty))
  | .assignment op lhs rhs _ => do
    let typedLhs ← handleExpression symbols lhs
    let typedRhs ← handleExpression symbols rhs
    let tyLhs ← runwrap typedLhs.ty
    let convertedRhs ← convertToType typedRhs tyLhs
    pure (.assignment op typedLhs convertedRhs (some tyLhs))
  | .conditional condition thenExpr elseExpr _ => do
    let typedCondition ← handleExpression symbols condition
    let typedThen ← handleExpression symbols thenExpr
    let typedElse ← handleExpression symbols elseExpr
    let tyThen ← runwrap typedThen.ty
    let tyElse ← runwrap typedElse.ty
    let common := getCommonType tyThen tyElse
    let convertedThen ← convertToType typedThen common
    let convertedElse ← convertToType typedElse common
    pure (.conditional typedCondition convertedThen convertedElse (some common))
  | .constant c _ =>
    pure (.constant c (some (match c with
      | .constantInt _ => Ty.int
      | .constantLong _ => Ty.long)))
  | .cast targetTy expr _ => do
    let typed ← handleExpression symbols expr
    pure (.cast targetTy typed (some targetTy))

/-- The argument-conversion loop of the `FunctionCall` arm
(`type_check.rs` lines 528-534): zip the arguments with the parameter
types, type-check each and convert it to the parameter type. -/
def handleArguments (symbols : SymbolTable) :
    List Expression → List Ty → RRes (List Expression)
  | [], _ => pure []
  | _ :: _, [] => pure []
  | argument :: args, parameterTy :: ptys => do
    let typed ← handleExpression symbols argument
    let converted ← convertToType typed parameterTy
    let rest ← handleArguments symbols args ptys
    pure (converted :: rest)

end

/-- Rust `handle_opt_expression` (`type_check.rs` lines 684-693). -/
def handleOptExpression (symbols : SymbolTable) :
    Option Expression → RRes (Option Expression)
  | some expr => (handleExpression symbols expr).map some
  | none => pure none

/-- Rust `handle_top_level_variable_declaration` (`type_check.rs` lines
87-161): compute the initial value and linkage, merge with an existing
entry, insert the `Static` symbol, and return the declaration
*unchanged* (`declaration.clone()`). -/
def handleTopLevelVariableDeclaration (symbols : SymbolTable)
    (declaration : VariableDeclaration) :
    RRes (VariableDeclaration × SymbolTable) := do
  let initial0 : SymbolInitialValue ←
    (match declaration.initializer with
    | some (.constant c _) =>
      (constantToStaticInitial c declaration.ty).map .initial
    | Option.none =>
      pure (if declaration.storageClass = some StorageClass.externStorage then
        SymbolInitialValue.none
      else .tentative)
    | some _ => .error (.msg "Non-constant initializer"))
  let global0 := declaration.storageClass ≠ some StorageClass.static
  let merged : SymbolInitialValue × Bool ←
    (match symGet symbols declaration.identifier with
    | some entry =>
      if ¬ Ty.beq entry.ty declaration.ty then
        .error (.msg ("Incompatible redeclaration of variable " ++
          declaration.identifier))
      else
        match entry.attrs with
        | .static entryInitial entryGlobal => do
          let global1 ←
            (if declaration.storageClass = some StorageClass.externStorage then
              pure entryGlobal
            else if entryGlobal ≠ global0 then
              .error (.msg ("Conflicting variable linkage of " ++
                declaration.identifier))
            else pure global0)
          let initial1 : SymbolInitialValue ←
            (match entryInitial with
            | .initial v =>
              match initial0 with
              | .initial _ =>
                .error (.msg ("Conflicting file scope variable definition of " ++
                  declaration.identifier))
              | _ => pure (SymbolInitialValue.initial v)
            | .tentative =>
              match initial0 with
              | .initial v => pure (SymbolInitialValue.initial v)
              | _ => pure SymbolInitialValue.tentative
            | SymbolInitialValue.none => pure initial0)
          pure (initial1, global1)
        | _ => .error .panic
    | Option.none => pure (initial0, global0))
  let symbols1 := symInsert symbols declaration.identifier
    ⟨declaration.ty, .static merged.1 merged.2⟩
  pure (declaration, symbols1)

mutual

/-- Rust `handle_statement` (`type_check.rs` lines 274-397).  Note the
`Case` arm returns `expression.clone()` — the case expression is *not*
type-checked — and the `Switch` arm clones its collected `cases`
untouched. -/
def handleStatement (symbols : SymbolTable) (enclosingReturnType : Ty) :
    Statement → RRes (Statement × SymbolTable)
  | .ret expr => do
    let typed ← handleExpression symbols expr
    let converted ← convertToType typed enclosingReturnType
    pure (.ret converted, symbols)
  | .expression expr => do
    let typed ← handleExpression symbols expr
    pure (.expression typed, symbols)
  | .ifStmt condition thenBranch elseBranch => do
    let typedCondition ← handleExpression symbols condition
    let (thenBranch1, symbols1) ← handleStatement symbols enclosingReturnType thenBranch
    match elseBranch with
    | some elseB => do
      let (elseB1, symbols2) ← handleStatement symbols1 enclosingReturnType elseB
      pure (.ifStmt typedCondition thenBranch1 (some elseB1), symbols2)
    | Option.none =>
      pure (.ifStmt typedCondition thenBranch1 Option.none, symbols1)
  | .labeled label stmt => do
    let (stmt1, symbols1) ← handleStatement symbols enclosingReturnType stmt
    pure (.labeled label stmt1, symbols1)
  | .compound block => do
    let (block1, symbols1) ← handleBlock symbols enclosingReturnType block
    pure (.compound block1, symbols1)
  | .whileStmt condition body label => do
    let typedCondition ← handleExpression symbols condition
    let (body1, symbols1) ← handleStatement symbols enclosingReturnType body
    pure (.whileStmt typedCondition body1 label, symbols1)
  | .doWhile body condition label => do
    let (body1, symbols1) ← handleStatement symbols enclosingReturnType body
    let typedCondition ← handleExpression symbols1 condition
    pure (.doWhile body1 typedCondition label, symbols1)
  | .forStmt initializer condition post body label => do
    let (initializer1, symbols1) ←
      (match initializer with
      | some (.variableDeclaration vd) =>
        if vd.storageClass.isSome then
          .error (.msg "For loop variable declaration cannot have storage class")
        else do
          let (vd1, symbols') ← handleBlockLevelVariableDeclaration symbols vd
          pure (some (ForInitializer.variableDeclaration vd1), symbols')
      | some (.expression expr) => do
        let typed ← handleExpression symbols expr
        pure (some (ForInitializer.expression typed), symbols)
      | Option.none => pure (Option.none, symbols))
    let condition1 ← handleOptExpression symbols1 condition
    let post1 ← handleOptExpression symbols1 post
    let (body1, symbols2) ← handleStatement symbols1 enclosingReturnType body
    pure (.forStmt initializer1 condition1 post1 body1 label, symbols2)
  | .switch expression body cases label => do
    let expression1 ← handleExpression symbols expression
    let (body1, symbols1) ← handleStatement symbols enclosingReturnType body
    pure (.switch expression1 body1 cases label, symbols1)
  | .caseStmt expression body label => do
    let (body1, symbols1) ← handleStatement symbols enclosingReturnType body
    pure (.caseStmt expression body1 label, symbols1)
  | .defaultStmt body label => do
    let (body1, symbols1) ← handleStatement symbols enclosingReturnType body
    pure (.defaultStmt body1 label, symbols1)
  | .null => pure (.null, symbols)
  | .goto l => pure (.goto l, symbols)
  | .breakStmt l => pure (.breakStmt l, symbols)
  | .continueStmt l => pure (.continueStmt l, symbols)

/-- Rust `handle_block` (`type_check.rs` lines 250-272). -/
def handleBlock (symbols : SymbolTable) (enclosingReturnType : Ty) :
    List BlockItem → RRes (List BlockItem × SymbolTable)
  | [] => pure ([], symbols)
  | .statement stmt :: rest => do
    let (stmt1, symbols1) ← handleStatement symbols enclosingReturnType stmt
    let (rest1, symbols2) ← handleBlock symbols1 enclosingReturnType rest
    pure (.statement stmt1 :: rest1, symbols2)
  | .declaration d :: rest => do
    let (d1, symbols1) ← handleBlockLevelDeclaration symbols d
    let (rest1, symbols2) ← handleBlock symbols1 enclosingReturnType rest
    pure (.declaration d1 :: rest1, symbols2)

/-- Rust `handle_block_level_declaration` (`type_check.rs` lines 399-411). -/
def handleBlockLevelDeclaration (symbols : SymbolTable) :
    Declaration → RRes (Declaration × SymbolTable)
  | .variableDecl vd => do
    let (vd1, symbols1) ← handleBlockLevelVariableDeclaration symbols vd
    pure (.variableDecl vd1, symbols1)
  | .functionDecl fd => do
    let (fd1, symbols1) ← handleFunctionDeclaration symbols fd
    pure (.functionDecl fd1, symbols1)

/-- Rust `handle_block_level_variable_declaration` (`type_check.rs` lines
413-500): `extern` declarations contribute a linking entry (and return
the declaration unchanged), `static` declarations record a constant
initial (and return the declaration unchanged), storage-class-free
declarations insert a `Local` symbol and type-check their
initializer. -/
def handleBlockLevelVariableDeclaration (symbols : SymbolTable) :
    VariableDeclaration → RRes (VariableDeclaration × SymbolTable)
  | declaration =>
    match declaration.storageClass with
    | some StorageClass.externStorage =>
      if declaration.initializer.isSome then
        .error (.msg "Block-level extern variable cannot have an initializer")
      else
        match symGet symbols declaration.identifier with
        | some entry =>
          if ¬ Ty.beq entry.ty declaration.ty then
            .error (.msg ("Incompatible redeclaration of variable " ++
              declaration.identifier))
          else pure (declaration, symbols)
        | Option.none =>
          pure (declaration, symInsert symbols declaration.identifier
            ⟨declaration.ty, .static SymbolInitialValue.none true⟩)
    | some StorageClass.static => do
      let initial : SymbolInitialValue ←
        (match declaration.initializer with
        | some (.constant c _) =>
          (constantToStaticInitial c declaration.ty).map .initial
        | Option.none =>
          (constantToStaticInitial (.constantInt 0) declaration.ty).map .initial
        | some _ =>
          .error (.msg "Non-constant initializer on block-level static variable"))
      pure (declaration, symInsert symbols declaration.identifier
        ⟨declaration.ty, .static initial false⟩)
    | Option.none => do
      let symbols1 := symInsert symbols declaration.identifier
        ⟨declaration.ty, .localAttr⟩
      let initializer1 ←
        (match declaration.initializer with
        | some expr => do
          let typed ← handleExpression symbols1 expr
          let converted ← convertToType typed declaration.ty
          pure (some converted)
        | Option.none => pure Option.none)
      pure (⟨declaration.identifier, initializer1, declaration.ty,
        declaration.storageClass⟩, symbols1)

/-- The parameter-insertion loop of `handle_function_declaration`
(`type_check.rs` lines 226-234): zip the parameter names with the
parameter types of the function type and insert each as `Local`. -/
def insertParameters (symbols : SymbolTable) :
    List String → List Ty → SymbolTable
  | [], _ => symbols
  | _ :: _, [] => symbols
  | p :: ps, ty :: tys =>
    insertParameters (symInsert symbols p ⟨ty, .localAttr⟩) ps tys

/-- Rust `handle_function_declaration` (`type_check.rs` lines 163-248). -/
def handleFunctionDeclaration (symbols : SymbolTable) :
    FunctionDeclaration → RRes (FunctionDeclaration × SymbolTable)
  | .mk identifier parameters body ty storageClass =>
    match ty with
    | .function returnType parameterTys => do
      let hasBody := body.isSome
      let merged : Bool × Bool ←
        (match symGet symbols identifier with
        | some entry =>
          if ¬ Ty.beq entry.ty (.function returnType parameterTys) then
            .error (.msg ("Incompatible redeclaration of function " ++ identifier))
          else
            match entry.attrs with
            | .function entryDefined entryGlobal =>
              if entryDefined && hasBody then
                .error (.msg ("Redefinition of function " ++ identifier))
              else if entryGlobal && storageClass = some StorageClass.static then
                .error (.msg ("Static function declaration of " ++ identifier ++
                  " after non-static declaration"))
              else pure (entryDefined, entryGlobal)
            | _ => .error .panic
        | Option.none =>
          pure (false, storageClass ≠ some StorageClass.static))
      let symbols1 := symInsert symbols identifier
        ⟨.function returnType parameterTys, .function (merged.1 || hasBody) merged.2⟩
      match body with
      | some bodyBlock => do
        let symbols2 := insertParameters symbols1 parameters parameterTys
        let (body1, symbols3) ← handleBlock symbols2 returnType bodyBlock
        pure (.mk identifier parameters (some body1)
          (.function returnType parameterTys) storageClass, symbols3)
      | Option.none =>
        pure (.mk identifier parameters body
          (.function returnType parameterTys) storageClass, symbols1)
    | _ => .error .panic

end

/-- Rust `handle_top_level_declaration` (`type_check.rs` lines 73-85). -/
def handleTopLevelDeclaration (symbols : SymbolTable) :
    Declaration → RRes (Declaration × SymbolTable)
  | .variableDecl vd => do
    let (vd1, symbols1) ← handleTopLevelVariableDeclaration symbols vd
    pure (.variableDecl vd1, symbols1)
  | .functionDecl fd => do
    let (fd1, symbols1) ← handleFunctionDeclaration symbols fd
    pure (.functionDecl fd1, symbols1)

/-- The declaration loop of `handle_program` (`type_check.rs` lines
63-71). -/
def handleProgramDeclarations (symbols : SymbolTable) :
    List Declaration → RRes (List Declaration × SymbolTable)
  | [] => pure ([], symbols)
  | d :: rest => do
    let (d1, symbols1) ← handleTopLevelDeclaration symbols d
    let (rest1, symbols2) ← handleProgramDeclarations symbols1 rest
    pure (d1 :: rest1, symbols2)

/-- Rust `TypeChecker::analyze` (`type_check.rs` lines 15-21): run
`handle_program` from an empty symbol table and return the rewritten
program together with the table. -/
def analyze (program : Program) : RRes (Program × SymbolTable) := do
  let (declarations, symbols) ← handleProgramDeclarations [] program.declarations
  pure (⟨declarations⟩, symbols)

mutual

/-- Claim-side predicate (C4's words): every expression node carries a
non-`None` type annotation. -/
def allTyped : Expression → Bool
  | .constant _ ty => ty.isSome
  | .var _ ty => ty.isSome
  | .cast _ e ty => ty.isSome && allTyped e
  | .unary _ e ty => ty.isSome && allTyped e
  | .binary _ lhs rhs ty => ty.isSome && allTyped lhs && allTyped rhs
  | .assignment _ lhs rhs ty => ty.isSome && allTyped lhs && allTyped rhs
  | .conditional c t e ty => ty.isSome && allTyped c && allTyped t && allTyped e
  | .functionCall _ args ty => ty.isSome && allTypedList args

/-- Rust `allTyped` over an argument list. -/
def allTypedList : List Expression → Bool
  | [] => true
  | e :: rest => allTyped e && allTypedList rest

end

mutual

/-- Claim-side predicate (C4's words) over statements: every expression
node in the statement — including `Case` expressions and the collected
cases of a `Switch` — is typed. -/
def stmtAllTyped : Statement → Bool
  | .ret e => allTyped e
  | .expression e => allTyped e
  | .ifStmt c t e =>
    allTyped c && stmtAllTyped t &&
      (match e with
       | some e' => stmtAllTyped e'
       | Option.none => true)
  | .goto _ => true
  | .labeled _ s => stmtAllTyped s
  | .compound block => blockAllTyped block
  | .breakStmt _ => true
  | .continueStmt _ => true
  | .whileStmt c b _ => allTyped c && stmtAllTyped b
  | .doWhile b c _ => stmtAllTyped b && allTyped c
  | .forStmt i c p b _ =>
    (match i with
     | some (.variableDeclaration vd) => vdAllTyped vd
     | some (.expression e) => allTyped e
     | Option.none => true) &&
    (match c with
     | some e => allTyped e
     | Option.none => true) &&
    (match p with
     | some e => allTyped e
     | Option.none => true) && stmtAllTyped b
  | .switch e b cases _ =>
    allTyped e && stmtAllTyped b &&
      (match cases with
       | some cs => allTypedList (cs.cases.map (·.1))
       | Option.none => true)
  | .caseStmt e b _ => allTyped e && stmtAllTyped b
  | .defaultStmt b _ => stmtAllTyped b
  | .null => true

/-- Rust `allTyped` over a variable declaration's initializer. -/
def vdAllTyped : VariableDeclaration → Bool
  | vd =>
    match vd.initializer with
    | some e => allTyped e
    | Option.none => true

/-- Rust `allTyped` over a block. -/
def blockAllTyped : List BlockItem → Bool
  | [] => true
  | .statement s :: rest => stmtAllTyped s && blockAllTyped rest
  | .declaration d :: rest => declAllTyped d && blockAllTyped rest

/-- Rust `allTyped` over a declaration. -/
def declAllTyped : Declaration → Bool
  | .variableDecl vd => vdAllTyped vd
  | .functionDecl (.mk _ _ (some body) _ _) => blockAllTyped body
  | .functionDecl (.mk _ _ Option.none _ _) => true

end

/-- Claim-side predicate (C4's words) over whole programs. -/
def programAllTyped (p : Program) : Bool :=
  p.declarations.all declAllTyped

end TC

/-! ### Claim theorems about the type checker -/

theorem rres_bind_ok {α β : Type} {x : RRes α} {f : α → RRes β} {b : β}
    (h : x >>= f = Except.ok b) : ∃ a, x = Except.ok a ∧ f a = Except.ok b := by
  cases x with
  | ok a => exact ⟨a, rfl, h⟩
  | error e =>
    exfalso
    simp only [Bind.bind, Except.bind] at h
    exact Except.noConfusion h

theorem runwrap_ok {α : Type} {o : Option α} {a : α}
    (h : runwrap o = .ok a) : o = some a := by
  cases o with
  | some x =>
    simp only [runwrap, Except.ok.injEq] at h
    rw [h]
  | none => exact Except.noConfusion h

theorem convertToType_allTyped {e : TC.Expression} {t : Ty} {e' : TC.Expression}
    (he : TC.allTyped e = true) (h : TC.convertToType e t = .ok e') :
    TC.allTyped e' = true := by
  unfold TC.convertToType at h
  obtain ⟨ety, hety, h⟩ := rres_bind_ok h
  split at h
  · simp only [pure, Except.pure, Except.ok.injEq] at h
    subst h
    exact he
  · simp only [pure, Except.pure, Except.ok.injEq] at h
    subst h
    simp [TC.allTyped, he]

/-- C4 (amended core): every expression returned by the type checker's
expression handler is fully typed — every node of the output carries a
non-`None` type annotation.  (The `Case`-statement expressions, the
collected `Switch` cases, and the initializers of file-scope and
block-scope `static`/`extern` declarations are *not* routed through
this handler; see `C4_case_expression_left_untyped`.) -/
theorem C4_expression_typing_total (symbols : TC.SymbolTable)
    (e e' : TC.Expression) (h : TC.handleExpression symbols e = .ok e') :
    TC.allTyped e' = true := by
  induction e using TC.handleExpression.induct symbols
    (motive_2 := fun args ptys => ∀ out,
      TC.handleArguments symbols args ptys = .ok out →
        TC.allTypedList out = true) generalizing e'
  case case1 identifier arguments ty ih =>
    simp only [TC.handleExpression] at h
    obtain ⟨entry, hentry, h⟩ := rres_bind_ok h
    split at h
    all_goals try exact Except.noConfusion h
    split at h
    · exact Except.noConfusion h
    · obtain ⟨conv, hconv, h⟩ := rres_bind_ok h
      simp only [pure, Except.pure, Except.ok.injEq] at h
      subst h
      simp only [TC.allTyped, Option.isSome_some, Bool.true_and]
      exact ih _ conv hconv
  case case2 identifier ty =>
    simp only [TC.handleExpression] at h
    obtain ⟨entry, hentry, h⟩ := rres_bind_ok h
    split at h
    all_goals try exact Except.noConfusion h
    all_goals
      simp only [pure, Except.pure, Except.ok.injEq] at h
      subst h
      simp [TC.allTyped]
  case case3 op expr ty ih =>
    simp only [TC.handleExpression] at h
    obtain ⟨typed, htyped, h⟩ := rres_bind_ok h
    obtain ⟨ety, hety, h⟩ := rres_bind_ok h
    simp only [pure, Except.pure, Except.ok.injEq] at h
    subst h
    simp [TC.allTyped, ih typed htyped]
  case case4 op lhs rhs ty ihl ihr =>
    simp only [TC.handleExpression] at h
    obtain ⟨typedLhs, hlhs, h⟩ := rres_bind_ok h
    obtain ⟨typedRhs, hrhs, h⟩ := rres_bind_ok h
    split at h
    all_goals first
      | (simp only [pure, Except.pure, Except.ok.injEq] at h
         subst h
         simp [TC.allTyped, ihl typedLhs hlhs, ihr typedRhs hrhs])
      | (obtain ⟨tyLhs, htyl, h⟩ := rres_bind_ok h
         obtain ⟨tyRhs, htyr, h⟩ := rres_bind_ok h
         obtain ⟨convL, hconvL, h⟩ := rres_bind_ok h
         obtain ⟨convR, hconvR, h⟩ := rres_bind_ok h
         obtain ⟨rty, hrty, h⟩ := rres_bind_ok h
         simp only [pure, Except.pure, Except.ok.injEq] at h
         subst h
         have hl := convertToType_allTyped (ihl typedLhs hlhs) hconvL
         have hr := convertToType_allTyped (ihr typedRhs hrhs) hconvR
         simp [TC.allTyped, hl, hr])
  case case5 op lhs rhs ty ihl ihr =>
    simp only [TC.handleExpression] at h
    obtain ⟨typedLhs, hlhs, h⟩ := rres_bind_ok h
    obtain ⟨typedRhs, hrhs, h⟩ := rres_bind_ok h
    obtain ⟨tyLhs, htyl, h⟩ := rres_bind_ok h
    obtain ⟨convR, hconvR, h⟩ := rres_bind_ok h
    simp only [pure, Except.pure, Except.ok.injEq] at h
    subst h
    have hr := convertToType_allTyped (ihr typedRhs hrhs) hconvR
    simp [TC.allTyped, ihl typedLhs hlhs, hr]
  case case6 condition thenExpr elseExpr ty ihc iht ihe =>
    simp only [TC.handleExpression] at h
    obtain ⟨typedCondition, hc, h⟩ := rres_bind_ok h
    obtain ⟨typedThen, ht, h⟩ := rres_bind_ok h
    obtain ⟨typedElse, he, h⟩ := rres_bind_ok h
    obtain ⟨tyThen, htyt, h⟩ := rres_bind_ok h
    obtain ⟨tyElse, htye, h⟩ := rres_bind_ok h
    obtain ⟨convT, hconvT, h⟩ := rres_bind_ok h
    obtain ⟨convE, hconvE, h⟩ := rres_bind_ok h
    simp only [pure, Except.pure, Except.ok.injEq] at h
    subst h
    have h1 := convertToType_allTyped (iht typedThen ht) hconvT
    have h2 := convertToType_allTyped (ihe typedElse he) hconvE
    simp [TC.allTyped, ihc typedCondition hc, h1, h2]
  case case7 c ty =>
    simp only [TC.handleExpression, pure, Except.pure, Except.ok.injEq] at h
    subst h
    simp [TC.allTyped]
  case case8 targetTy expr ty ih =>
    simp only [TC.handleExpression] at h
    obtain ⟨typed, htyped, h⟩ := rres_bind_ok h
    simp only [pure, Except.pure, Except.ok.injEq] at h
    subst h
    simp [TC.allTyped, ih typed htyped]
  case case9 x out hout =>
    simp only [TC.handleArguments, pure, Except.pure, Except.ok.injEq] at hout
    subst hout
    rfl
  case case10 head tail out hout =>
    simp only [TC.handleArguments, pure, Except.pure, Except.ok.injEq] at hout
    subst hout
    rfl
  case case11 argument args parameterTy ptys iha ihrest out hout =>
    simp only [TC.handleArguments] at hout
    obtain ⟨typed, htyped, hout⟩ := rres_bind_ok hout
    obtain ⟨converted, hconv, hout⟩ := rres_bind_ok hout
    obtain ⟨rest, hrest, hout⟩ := rres_bind_ok hout
    simp only [pure, Except.pure, Except.ok.injEq] at hout
    subst hout
    have h1 := convertToType_allTyped (iha typed htyped) hconv
    simp [TC.allTypedList, h1, ihrest rest hrest]

/-- Witness for `C4_expression_typing_total` at a concrete constant
expression and the empty symbol table. -/
theorem C4_expression_typing_total_witness :
    TC.allTyped (.constant (.constantInt 5) (some .int)) = true :=
  C4_expression_typing_total [] (.constant (.constantInt 5) Option.none)
    (.constant (.constantInt 5) (some .int)) rfl

/-- A program whose `main` body contains a `case` statement: the shape
the type checker receives for `int main(void) { case 1: return 0; }`. -/
def c4Program : TC.Program :=
  ⟨[ .functionDecl (.mk "main" []
      (some [ .statement (.caseStmt (.constant (.constantInt 1) Option.none)
        (.ret (.constant (.constantInt 0) Option.none)) Option.none) ])
      (.function .int []) Option.none) ]⟩

/-- The type checker's output on `c4Program`: the `case` expression
comes back with `ty = None`. -/
def c4Expected : TC.Program :=
  ⟨[ .functionDecl (.mk "main" []
      (some [ .statement (.caseStmt (.constant (.constantInt 1) Option.none)
        (.ret (.constant (.constantInt 0) (some .int))) Option.none) ])
      (.function .int []) Option.none) ]⟩

/-- C4 counterexample: the type checker succeeds on `c4Program`, but
the returned AST contains an untyped expression node — the `Case`
statement's expression is cloned without a type annotation (the `Case`
arm of `handle_statement` returns `expression.clone()`). -/
theorem C4_case_expression_left_untyped :
    TC.analyze c4Program =
      .ok (c4Expected, [("main", ⟨.function .int [], .function true true⟩)]) ∧
    TC.programAllTyped c4Expected = false :=
  ⟨rfl, rfl⟩

end Cco
